import Mathlib

/-!
# Dropdown colour enforcer (`assets/dropdown_fix.js`)

A shallow embedding of the script and of the part of the DOM it touches.

* A document is the list of its elements in document order; an element handle is its
  position in that list and `parentElement` is a handle.
* The inline style of an element is its list of declarations; `setProperty` updates a
  declaration in place or appends a new one.  Declared values are kept as the strings
  the script passes.
* The only event listeners modelled are the two closures the script registers; an event
  dispatched at an element runs the listeners registered on that element for its type.
* `className` of an SVG element is an `SVGAnimatedString` object, not a string, so calling
  `includes` on it raises a `TypeError`; `classList`, `style` and the `class` attribute
  behave alike for HTML and SVG elements.
* `window.getComputedStyle(element).color` is supplied by the browser; it is a parameter
  `computedColor` that may depend on the current state of the document.
* Console output is left out, except for the elements the manual sweep logs as corrected.
  The wiring of the `DOMContentLoaded` handler (first run, `observe`, `setInterval`) is
  not modelled: the functions it wires are.
-/

namespace DropdownFix

/-! ## Strings -/

/-- Substring test on character lists: `search` occurs as a contiguous block. -/
def includesChars (search : List Char) : List Char → Bool
  | [] => search.isEmpty
  | c :: cs => search.isPrefixOf (c :: cs) || includesChars search cs

/-- JavaScript `s.includes(search)`. -/
def includes (s search : String) : Bool :=
  includesChars search.toList s.toList

/-- ASCII whitespace, the separators of a `class` attribute. -/
def isAsciiWhitespace (c : Char) : Bool :=
  c = ' ' || c = '\t' || c = '\n' || c = '\x0c' || c = '\r'

/-- Split on ASCII whitespace, dropping empty tokens; `cur` is the token being read,
reversed. -/
def splitOnWhitespace : List Char → List Char → List (List Char)
  | [], cur => if cur.isEmpty then [] else [cur.reverse]
  | c :: cs, cur =>
    if isAsciiWhitespace c then
      (if cur.isEmpty then splitOnWhitespace cs [] else cur.reverse :: splitOnWhitespace cs [])
    else splitOnWhitespace cs (c :: cur)

/-! ## Inline style -/

/-- One declaration of an inline style: `property: value !priority`. -/
structure Declaration where
  property : String
  value : String
  priority : String
deriving DecidableEq, Repr

/-- The declaration block behind `element.style`. -/
abbrev CSSStyleDeclaration := List Declaration

/-- The call `style.setProperty(property, value, priority)` for a valid value: the existing
declaration of the property is replaced in place, otherwise one is appended. -/
def setProperty : CSSStyleDeclaration → String → String → String → CSSStyleDeclaration
  | [], property, value, priority => [⟨property, value, priority⟩]
  | d :: ds, property, value, priority =>
    if d.property = property then ⟨property, value, priority⟩ :: ds
    else d :: setProperty ds property value priority

/-- The call `style.getPropertyValue(property)`; the empty string when undeclared. -/
def getPropertyValue : CSSStyleDeclaration → String → String
  | [], _ => ""
  | d :: ds, property => if d.property = property then d.value else getPropertyValue ds property

/-- The call `style.getPropertyPriority(property)`; the empty string when undeclared. -/
def getPropertyPriority : CSSStyleDeclaration → String → String
  | [], _ => ""
  | d :: ds, property =>
    if d.property = property then d.priority else getPropertyPriority ds property

/-! ## Elements and documents -/

/-- The two closures the script registers with `addEventListener`, named by event type. -/
inductive Listener
  | mouseenter
  | mouseleave
deriving DecidableEq, Repr

/-- The value of the `className` property: a string on HTML elements, an
`SVGAnimatedString` object on SVG elements. -/
inductive ClassName
  | string (s : String)
  | animated (baseVal : String)
deriving DecidableEq, Repr

/-- An element: what the script reads (`localName`, namespace, parent, `class`, `role`) and
what it writes (inline style, listeners). -/
structure Element where
  localName : String
  svg : Bool
  parentElement : Option Nat
  classAttr : String
  role : Option String
  style : CSSStyleDeclaration
  listeners : List Listener
deriving DecidableEq, Repr

/-- A document: its elements in document order. -/
abbrev Document := List Element

/-- The call `element.classList.contains(token)`. -/
def Element.classListContains (e : Element) (token : String) : Bool :=
  (splitOnWhitespace e.classAttr.toList []).elem token.toList

/-- The property `element.className`. -/
def Element.className (e : Element) : ClassName :=
  if e.svg then .animated e.classAttr else .string e.classAttr

/-- Apply `f` to the element with handle `i`. -/
def updateElement : Document → Nat → (Element → Element) → Document
  | [], _, _ => []
  | e :: es, 0, f => f e :: es
  | e :: es, i + 1, f => e :: updateElement es i f

/-- Handles of the ancestors reached from a parent pointer, nearest first; `fuel` bounds
the length of the chain. -/
def ancestors (doc : Document) : Nat → Option Nat → List Nat
  | 0, _ => []
  | _ + 1, none => []
  | fuel + 1, some p =>
    match doc[p]? with
    | none => []
    | some a => p :: ancestors doc fuel a.parentElement

/-- Handles of the ancestors of `e` in `doc`. -/
def ancestorsOf (doc : Document) (e : Element) : List Nat :=
  ancestors doc doc.length e.parentElement

/-- Inline style of the element with handle `i`. -/
def styleOf (doc : Document) (i : Nat) : CSSStyleDeclaration :=
  match doc[i]? with
  | some e => e.style
  | none => []

/-- Listeners registered on the element with handle `i`, in registration order. -/
def listenersOf (doc : Document) (i : Nat) : List Listener :=
  match doc[i]? with
  | some e => e.listeners
  | none => []

/-! ## Selectors -/

/-- The selector forms used by the script. -/
inductive Selector
  | byClass (name : String)
  | roleEquals (value : String)
  | classSubstring (sub : String)
  | classDescendant (name : String) (tag : String)
deriving DecidableEq, Repr

/-- Whether `e`, an element of `doc`, matches the selector; class names and attribute
values are compared case-sensitively. -/
def Selector.matchesElement (doc : Document) : Selector → Element → Bool
  | .byClass name, e => e.classListContains name
  | .roleEquals value, e => decide (e.role = some value)
  | .classSubstring sub, e => !sub.toList.isEmpty && includes e.classAttr sub
  | .classDescendant name tag, e =>
    decide (e.localName = tag) &&
      (ancestorsOf doc e).any fun j =>
        match doc[j]? with
        | some a => a.classListContains name
        | none => false

/-- The call `document.querySelectorAll(selector)`: handles in document order. -/
def querySelectorAll (doc : Document) (selector : Selector) : List Nat :=
  (List.range doc.length).filter fun i =>
    match doc[i]? with
    | some e => selector.matchesElement doc e
    | none => false

/-- The call `node.querySelector(selector)`: the first descendant of `node` that matches. -/
def querySelector (doc : Document) (node : Nat) (selector : Selector) : Option Nat :=
  (List.range doc.length).find? fun j =>
    match doc[j]? with
    | some e => (ancestorsOf doc e).elem node && selector.matchesElement doc e
    | none => false

/-! ## Automatic enforcement: `fixDropdownColors` of the `DOMContentLoaded` handler -/

/-- The list `selectors` of the source. -/
def selectors : List Selector :=
  [ .byClass "Select-option",
    .roleEquals "option",
    .byClass "dropdown-item",
    .classDescendant "Select-menu" "div",
    .classDescendant "Select-menu-outer" "div",
    .classSubstring "option",
    .classSubstring "Option" ]

/-- Body of `elements.forEach(element => ...)`: two `setProperty` calls, two
`addEventListener` calls. -/
def enforceElement (e : Element) : Element :=
  { e with
    style := setProperty (setProperty e.style "color" "#000000" "important")
      "background-color" "white" "important"
    listeners := e.listeners ++ [Listener.mouseenter, Listener.mouseleave] }

/-- Body of `selectors.forEach(selector => ...)`. -/
def enforceSelector (doc : Document) (selector : Selector) : Document :=
  (querySelectorAll doc selector).foldl (fun d i => updateElement d i enforceElement) doc

/-- One enforcement pass. -/
def fixDropdownColors (doc : Document) : Document :=
  selectors.foldl enforceSelector doc

/-! ## Event dispatch -/

/-- The `mouseenter` closure, `this` being the element. -/
def onMouseEnter (e : Element) : Element :=
  { e with
    style := setProperty (setProperty e.style "background-color" "#0066cc" "important")
      "color" "white" "important" }

/-- The `mouseleave` closure, `this` being the element. -/
def onMouseLeave (e : Element) : Element :=
  if !e.classListContains "is-selected" then
    { e with
      style := setProperty (setProperty e.style "background-color" "white" "important")
        "color" "#000000" "important" }
  else e

/-- Event type a listener is registered for. -/
def Listener.type : Listener → String
  | .mouseenter => "mouseenter"
  | .mouseleave => "mouseleave"

/-- Run a listener on its element. -/
def Listener.handle : Listener → Element → Element
  | .mouseenter => onMouseEnter
  | .mouseleave => onMouseLeave

/-- Run, in registration order, the listeners of `e` registered for `type`. -/
def runListeners (type : String) (e : Element) : Element :=
  (e.listeners.filter fun l => decide (l.type = type)).foldl (fun acc l => l.handle acc) e

/-- Dispatch an event of the given type at the element with handle `i`. -/
def dispatchEvent (doc : Document) (i : Nat) (type : String) : Document :=
  updateElement doc i (runListeners type)

/-! ## Structural-change observer -/

/-- A node of a mutation record: an element of the document, or a node of one of the
other kinds that can be inserted below `body`. -/
inductive Node
  | element (i : Nat)
  | text
  | cdataSection
  | processingInstruction
  | comment
deriving DecidableEq, Repr

/-- The property `node.nodeType`. -/
def Node.nodeType : Node → Nat
  | .element _ => 1
  | .text => 3
  | .cdataSection => 4
  | .processingInstruction => 7
  | .comment => 8

/-- A mutation record, as far as the callback reads it. -/
structure MutationRecord where
  type : String
  addedNodes : List Node
deriving DecidableEq, Repr

/-- Functions handed to `setTimeout`. -/
inductive Callback
  | fixDropdownColors
deriving DecidableEq, Repr

/-- One call `setTimeout(callback, delay)`. -/
structure Timeout where
  callback : Callback
  delay : Nat
deriving DecidableEq, Repr

/-- The test applied to an added element node. -/
def isOrContainsDropdown (doc : Document) (i : Nat) (e : Element) : Bool :=
  e.classListContains "Select-menu" ||
    e.classListContains "Select-menu-outer" ||
    (querySelector doc i (.byClass "Select-option")).isSome ||
    (querySelector doc i (.roleEquals "option")).isSome

/-- Body of `mutation.addedNodes.forEach(function(node) ...)`; the result is the new
value of `shouldFix`.  The test `node.nodeType === 1` selects the element nodes. -/
def visitAddedNode (doc : Document) (shouldFix : Bool) : Node → Bool
  | .element i =>
    match doc[i]? with
    | some e => if isOrContainsDropdown doc i e then true else shouldFix
    | none => shouldFix
  | _ => shouldFix

/-- Body of `mutations.forEach(function(mutation) ...)`. -/
def visitMutation (doc : Document) (shouldFix : Bool) (mutation : MutationRecord) : Bool :=
  if mutation.type = "childList" then mutation.addedNodes.foldl (visitAddedNode doc) shouldFix
  else shouldFix

/-- The `MutationObserver` callback: the timeouts it sets. -/
def observerCallback (doc : Document) (mutations : List MutationRecord) : List Timeout :=
  if mutations.foldl (visitMutation doc) false then [⟨Callback.fixDropdownColors, 100⟩]
  else []

/-! ## Manual sweep: `window.fixDropdownColors` -/

/-- How a JavaScript function body ends: normally, or by a thrown error; either way with
the state reached. -/
inductive Completion (σ : Type)
  | normal (state : σ)
  | throw (state : σ) (error : String)
deriving DecidableEq, Repr

/-- The call `className.includes(search)`: an `SVGAnimatedString` has no such method. -/
def ClassName.includes : ClassName → String → Except String Bool
  | .string s, search => .ok (DropdownFix.includes s search)
  | .animated _, _ => .error "TypeError: includes is not a function"

/-- The operator `a || b` with `b` evaluated only when `a` is false. -/
def orElse (a : Except String Bool) (b : Unit → Except String Bool) : Except String Bool :=
  match a with
  | .ok true => .ok true
  | .ok false => b ()
  | .error err => .error err

/-- The value `parentClasses` of the source. -/
def parentClasses (doc : Document) (e : Element) : ClassName :=
  match e.parentElement with
  | some p =>
    match doc[p]? with
    | some parent => parent.className
    | none => .string ""
  | none => .string ""

/-- The first conjunct of the sweep's condition. -/
def isDropdownRelated (doc : Document) (e : Element) : Except String Bool :=
  orElse ((parentClasses doc e).includes "Select-menu") fun _ =>
  orElse ((parentClasses doc e).includes "dropdown") fun _ =>
  orElse (.ok (decide (e.role = some "option"))) fun _ =>
  e.className.includes "option"

/-- The second conjunct of the sweep's condition. -/
def isWhite (color : String) : Bool :=
  color = "rgb(255, 255, 255)" || color = "rgba(255, 255, 255, 1)" || color = "white"

/-- The two `setProperty` calls of the sweep. -/
def forceColors (e : Element) : Element :=
  { e with
    style := setProperty (setProperty e.style "color" "#000000" "important")
      "background-color" "white" "important" }

/-- State of the sweep: the document and the elements logged as corrected. -/
structure Page where
  doc : Document
  corrected : List Nat
deriving DecidableEq, Repr

/-- Body of `allElements.forEach(element => ...)` for the element `e` with handle `i`. -/
def sweepElement (computedColor : Document → Nat → String) (page : Page) (i : Nat)
    (e : Element) : Completion Page :=
  match isDropdownRelated page.doc e with
  | .error err => .throw page err
  | .ok false => .normal page
  | .ok true =>
    if isWhite (computedColor page.doc i) then
      .normal ⟨updateElement page.doc i forceColors, page.corrected ++ [i]⟩
    else .normal page

/-- The state a function body ends with, thrown or not. -/
def Completion.state {σ : Type} : Completion σ → σ
  | .normal s => s
  | .throw s _ => s

/-- Sequencing: what follows runs only after a normal completion. -/
def Completion.bind {σ : Type} (c : Completion σ) (f : σ → Completion σ) : Completion σ :=
  match c with
  | .normal s => f s
  | .throw s err => .throw s err

/-- One round of `allElements.forEach` on the handle `i`. -/
def visitElement (computedColor : Document → Nat → String) (page : Page) (i : Nat) :
    Completion Page :=
  match page.doc[i]? with
  | some e => sweepElement computedColor page i e
  | none => .normal page

/-- The loop `allElements.forEach`; a thrown error ends it. -/
def sweepElements (computedColor : Document → Nat → String) : List Nat → Page → Completion Page
  | [], page => .normal page
  | i :: rest, page =>
    (visitElement computedColor page i).bind (sweepElements computedColor rest)

/-- The sweep over the first `n` elements of `document.querySelectorAll('*')`. -/
def sweepPrefix (computedColor : Document → Nat → String) (doc : Document) (n : Nat) :
    Completion Page :=
  sweepElements computedColor (List.range n) ⟨doc, []⟩

/-- The manual sweep. -/
def window.fixDropdownColors (computedColor : Document → Nat → String) (doc : Document) :
    Completion Page :=
  sweepPrefix computedColor doc doc.length

/-! ## Auxiliary definitions for the proofs -/

/-- The part of an element the script only reads. -/
def Element.frame (e : Element) : Element :=
  { e with style := [], listeners := [] }

/-- Number of selectors of the list `selectors` that `e` matches in `doc`. -/
def matchCount (doc : Document) (e : Element) : Nat :=
  selectors.countP fun s => s.matchesElement doc e

/-- The style written by the two `setProperty` calls of an enforcement. -/
def blackOnWhite (s : CSSStyleDeclaration) : CSSStyleDeclaration :=
  setProperty (setProperty s "color" "#000000" "important") "background-color" "white"
    "important"

/-- The style written by the `mouseenter` closure. -/
def accent (s : CSSStyleDeclaration) : CSSStyleDeclaration :=
  setProperty (setProperty s "background-color" "#0066cc" "important") "color" "white"
    "important"

/-- The style written by the `mouseleave` closure on an element that is not selected. -/
def whiteUnderBlack (s : CSSStyleDeclaration) : CSSStyleDeclaration :=
  setProperty (setProperty s "background-color" "white" "important") "color" "#000000"
    "important"

/-- The listeners registered by `k` runs of the inner loop body, in registration order. -/
def registered : Nat → List Listener
  | 0 => []
  | k + 1 => Listener.mouseenter :: Listener.mouseleave :: registered k

/-- Two states of an element that no dispatch of `mouseenter` or `mouseleave` tells
apart by inline style: same style, same attributes, and listeners of each kind present
in both or in neither. -/
def Alike (x y : Element) : Prop :=
  x.style = y.style ∧ x.frame = y.frame ∧
  (x.listeners.count Listener.mouseenter = 0 ↔ y.listeners.count Listener.mouseenter = 0) ∧
  (x.listeners.count Listener.mouseleave = 0 ↔ y.listeners.count Listener.mouseleave = 0)

/-! ## Predicates of the claims on styles and selectors -/

/-- Inline `color` is `#000000` and inline `background-color` is `white`, both with
priority `important`. -/
def IsBlackOnWhite (s : CSSStyleDeclaration) : Prop :=
  getPropertyValue s "color" = "#000000" ∧ getPropertyPriority s "color" = "important" ∧
  getPropertyValue s "background-color" = "white" ∧
  getPropertyPriority s "background-color" = "important"

/-- Inline `background-color` is `#0066cc` and inline `color` is `white`, both with
priority `important`. -/
def IsAccent (s : CSSStyleDeclaration) : Prop :=
  getPropertyValue s "background-color" = "#0066cc" ∧
  getPropertyPriority s "background-color" = "important" ∧
  getPropertyValue s "color" = "white" ∧ getPropertyPriority s "color" = "important"

instance (s : CSSStyleDeclaration) : Decidable (IsBlackOnWhite s) := by
  unfold IsBlackOnWhite; infer_instance

instance (s : CSSStyleDeclaration) : Decidable (IsAccent s) := by
  unfold IsAccent; infer_instance

/-- The string `sub` occurs in the string `s`. -/
def ContainsSubstring (s sub : String) : Prop :=
  sub.toList <:+: s.toList

/-- Some ancestor of `e` carries the class `name`. -/
def InsideClass (doc : Document) (e : Element) (name : String) : Prop :=
  ∃ (j : Nat) (a : Element), j ∈ ancestorsOf doc e ∧ doc[j]? = some a ∧
    a.classListContains name = true

/-! ## Predicates of the claims on the observer -/

/-- The element with handle `i` has a descendant satisfying `p`. -/
def HasDescendant (doc : Document) (i : Nat) (p : Element → Prop) : Prop :=
  ∃ (j : Nat) (d : Element), doc[j]? = some d ∧ i ∈ ancestorsOf doc d ∧ p d

/-- An added node the callback reacts to: an element node that has class `Select-menu` or
`Select-menu-outer`, or has a descendant matching `.Select-option` or `[role="option"]`. -/
def QualifyingNode (doc : Document) (node : Node) : Prop :=
  node.nodeType = 1 ∧ ∃ i e, node = Node.element i ∧ doc[i]? = some e ∧
    (e.classListContains "Select-menu" = true ∨
      e.classListContains "Select-menu-outer" = true ∨
      HasDescendant doc i (fun d => d.classListContains "Select-option" = true) ∨
      HasDescendant doc i (fun d => d.role = some "option"))

/-- Some `childList` record of the batch has a qualifying added node. -/
def HasQualifyingNode (doc : Document) (mutations : List MutationRecord) : Prop :=
  ∃ m ∈ mutations, m.type = "childList" ∧ ∃ node ∈ m.addedNodes, QualifyingNode doc node

/-- A wrapper without classes around a single `a.dropdown-item`. -/
def itemDocument : Document :=
  [ ⟨"div", false, none, "", none, [], []⟩,
    ⟨"a", false, some 0, "dropdown-item", none, [], []⟩ ]

/-- The first conjunct of the sweep's condition as C7 words it, for elements whose
`className` is a string: `parentClassName` is the `class` of the parent, empty without
parent. -/
def relatedToDropdown (doc : Document) (e : Element) : Bool :=
  let parentClassName :=
    match e.parentElement with
    | some p =>
      match doc[p]? with
      | some parent => parent.classAttr
      | none => ""
    | none => ""
  includes parentClassName "Select-menu" || includes parentClassName "dropdown" ||
    decide (e.role = some "option") || includes e.classAttr "option"

/-- Every element of the document is an HTML element. -/
def AllHtml (doc : Document) : Prop :=
  ∀ (i : Nat) (e : Element), doc[i]? = some e → e.svg = false

/-- Parents come before their children in document order. -/
def WellFormed (doc : Document) : Prop :=
  ∀ (i : Nat) (e : Element), doc[i]? = some e →
    ∀ p, e.parentElement = some p → p < i

/-! ## Example documents -/

/-- A selected option with inline white-on-blue style. -/
def selectedOption : Element :=
  ⟨"div", false, some 1, "Select-option is-selected", none,
    [⟨"color", "white", ""⟩, ⟨"background-color", "blue", ""⟩], []⟩

/-- An option that is not selected. -/
def plainOption : Element :=
  ⟨"div", false, some 1, "Select-option", none, [], []⟩

/-- A menu of the dropdown component: `body > div.Select-menu-outer` holding
`selectedOption` and `plainOption`. -/
def menuDocument : Document :=
  [ ⟨"body", false, none, "", none, [], []⟩,
    ⟨"div", false, some 0, "Select-menu-outer", none, [], []⟩,
    selectedOption,
    plainOption ]

/-- Computed colours on a page whose stylesheet paints all text white: an element whose
inline style declares `color: #000000` computes to black, any other to white. -/
def whiteSheet (doc : Document) (i : Nat) : String :=
  if getPropertyValue (styleOf doc i) "color" = "#000000" then "rgb(0, 0, 0)"
  else "rgb(255, 255, 255)"

/-- A page with an inline SVG chart before a dropdown option. -/
def svgDocument : Document :=
  [ ⟨"body", false, none, "", none, [], []⟩,
    ⟨"svg", true, some 0, "main-svg", none, [], []⟩,
    ⟨"div", false, some 0, "Select-option", none, [], []⟩ ]

/-- A `span` without class or role inside a `div.dropdown`. -/
def dropdownDocument : Document :=
  [ ⟨"body", false, none, "", none, [], []⟩,
    ⟨"div", false, some 0, "dropdown", none, [], []⟩,
    ⟨"span", false, some 1, "", none, [], []⟩ ]

/-! # Theorems -/

/-! ## Inline style: lemmas -/

theorem getPropertyValue_setProperty (s : CSSStyleDeclaration) (p v pr : String) :
    getPropertyValue (setProperty s p v pr) p = v := by
  induction s with
  | nil => simp [setProperty, getPropertyValue]
  | cons d ds ih =>
    by_cases h : d.property = p
    · simp [setProperty, getPropertyValue, h]
    · simp [setProperty, getPropertyValue, h, ih]

theorem getPropertyPriority_setProperty (s : CSSStyleDeclaration) (p v pr : String) :
    getPropertyPriority (setProperty s p v pr) p = pr := by
  induction s with
  | nil => simp [setProperty, getPropertyPriority]
  | cons d ds ih =>
    by_cases h : d.property = p
    · simp [setProperty, getPropertyPriority, h]
    · simp [setProperty, getPropertyPriority, h, ih]

theorem getPropertyValue_setProperty_ne (s : CSSStyleDeclaration) (p q v pr : String)
    (hne : q ≠ p) : getPropertyValue (setProperty s q v pr) p = getPropertyValue s p := by
  induction s with
  | nil => simp [setProperty, getPropertyValue, hne]
  | cons d ds ih =>
    by_cases h : d.property = q
    · have h2 : d.property ≠ p := by rw [h]; exact hne
      simp [setProperty, getPropertyValue, h, h2, hne]
    · by_cases h3 : d.property = p
      · simp [setProperty, getPropertyValue, h, h3, hne.symm]
      · simp [setProperty, getPropertyValue, h, h3, ih]

theorem getPropertyPriority_setProperty_ne (s : CSSStyleDeclaration) (p q v pr : String)
    (hne : q ≠ p) : getPropertyPriority (setProperty s q v pr) p = getPropertyPriority s p := by
  induction s with
  | nil => simp [setProperty, getPropertyPriority, hne]
  | cons d ds ih =>
    by_cases h : d.property = q
    · have h2 : d.property ≠ p := by rw [h]; exact hne
      simp [setProperty, getPropertyPriority, h, h2, hne]
    · by_cases h3 : d.property = p
      · simp [setProperty, getPropertyPriority, h, h3, hne.symm]
      · simp [setProperty, getPropertyPriority, h, h3, ih]

/-- A second `setProperty` on the same property overrides the first. -/
theorem setProperty_setProperty (s : CSSStyleDeclaration) (p v pr w wr : String) :
    setProperty (setProperty s p v pr) p w wr = setProperty s p w wr := by
  induction s with
  | nil => simp [setProperty]
  | cons d ds ih =>
    by_cases h : d.property = p
    · simp [setProperty, h]
    · simp [setProperty, h, ih]

/-- Re-setting `p` after `p` and `q` were set keeps the positions of both. -/
theorem setProperty_again (s : CSSStyleDeclaration) (p q v pr w wr x xr : String)
    (hne : p ≠ q) :
    setProperty (setProperty (setProperty s p v pr) q w wr) p x xr
      = setProperty (setProperty s p x xr) q w wr := by
  induction s with
  | nil => simp [setProperty, hne]
  | cons d ds ih =>
    by_cases h : d.property = p
    · simp [setProperty, h, hne]
    · by_cases h2 : d.property = q
      · simp [setProperty, h, h2, hne.symm, setProperty_setProperty]
      · simp [setProperty, h, h2, ih]

/-- Setting `p` then `q`, twice, is setting them once with the last values. -/
theorem setProperty_pair_twice (s : CSSStyleDeclaration) (p q v pr w wr x xr y yr : String)
    (hne : p ≠ q) :
    setProperty (setProperty (setProperty (setProperty s p v pr) q w wr) p x xr) q y yr
      = setProperty (setProperty s p x xr) q y yr := by
  rw [setProperty_again s p q v pr w wr x xr hne, setProperty_setProperty]

/-! ## Documents: lemmas -/

theorem updateElement_length (doc : Document) (i : Nat) (f : Element → Element) :
    (updateElement doc i f).length = doc.length := by
  induction doc generalizing i with
  | nil => simp [updateElement]
  | cons e es ih => cases i <;> simp [updateElement, ih]

theorem updateElement_getElem? (doc : Document) (i j : Nat) (f : Element → Element) :
    (updateElement doc i f)[j]? = if j = i then doc[j]?.map f else doc[j]? := by
  induction doc generalizing i j with
  | nil => simp [updateElement]
  | cons e es ih =>
    cases i with
    | zero => cases j <;> simp [updateElement]
    | succ i => cases j <;> simp [updateElement, ih]

theorem foldl_updateElement_getElem? (f : Element → Element) (l : List Nat) (doc : Document)
    (j : Nat) :
    (l.foldl (fun d i => updateElement d i f) doc)[j]? = doc[j]?.map (f^[l.count j]) := by
  induction l generalizing doc with
  | nil => simp
  | cons i l ih =>
    rw [List.foldl_cons, ih, updateElement_getElem?, List.count_cons]
    by_cases h : j = i
    · subst h
      cases hj : doc[j]? <;> simp [Function.iterate_succ_apply]
    · have h2 : ¬ i = j := fun e => h e.symm
      simp [h, h2]

/-! ## What a pass leaves alone -/

theorem ancestors_map_frame (doc : Document) (fuel : Nat) (p : Option Nat) :
    ancestors (doc.map Element.frame) fuel p = ancestors doc fuel p := by
  induction fuel generalizing p with
  | zero => simp [ancestors]
  | succ n ih =>
    cases p with
    | none => simp [ancestors]
    | some q =>
      simp only [ancestors, List.getElem?_map]
      cases doc[q]? with
      | none => rfl
      | some a => simp [ih, Element.frame]

theorem matchesElement_frame (doc : Document) (s : Selector) (e : Element) :
    s.matchesElement (doc.map Element.frame) e.frame = s.matchesElement doc e := by
  cases s with
  | byClass name => rfl
  | roleEquals value => rfl
  | classSubstring sub => rfl
  | classDescendant name tag =>
    simp only [Selector.matchesElement, ancestorsOf, List.length_map, ancestors_map_frame]
    have h1 : e.frame.localName = e.localName := rfl
    have h2 : e.frame.parentElement = e.parentElement := rfl
    rw [h1, h2]
    congr 2
    funext j
    rw [List.getElem?_map]
    cases doc[j]? <;> rfl

theorem matchesElement_congr {d1 d2 : Document} {e1 e2 : Element}
    (hd : d1.map Element.frame = d2.map Element.frame) (he : e1.frame = e2.frame)
    (s : Selector) : s.matchesElement d1 e1 = s.matchesElement d2 e2 := by
  rw [← matchesElement_frame d1, ← matchesElement_frame d2, hd, he]

theorem matchCount_congr {d1 d2 : Document} {e1 e2 : Element}
    (hd : d1.map Element.frame = d2.map Element.frame) (he : e1.frame = e2.frame) :
    matchCount d1 e1 = matchCount d2 e2 := by
  unfold matchCount
  congr 1
  funext s
  exact matchesElement_congr hd he s

theorem enforceElement_frame (e : Element) : (enforceElement e).frame = e.frame := rfl

theorem iterate_enforceElement_frame (n : Nat) (e : Element) :
    (enforceElement^[n] e).frame = e.frame := by
  induction n generalizing e with
  | zero => rfl
  | succ n ih => rw [Function.iterate_succ_apply, ih, enforceElement_frame]

theorem count_querySelectorAll (doc : Document) (s : Selector) (j : Nat) (e : Element)
    (he : doc[j]? = some e) :
    (querySelectorAll doc s).count j = if s.matchesElement doc e then 1 else 0 := by
  have hj : j < doc.length := by
    obtain ⟨h, _⟩ := List.getElem?_eq_some.mp he
    exact h
  have hnd : (querySelectorAll doc s).Nodup := (List.nodup_range _).filter _
  by_cases hm : s.matchesElement doc e = true
  · rw [if_pos hm]
    apply List.count_eq_one_of_mem hnd
    simp [querySelectorAll, List.mem_filter, hj, he, hm]
  · rw [if_neg hm]
    apply List.count_eq_zero.mpr
    simp [querySelectorAll, List.mem_filter, he, hm]

theorem enforceSelector_getElem? (doc : Document) (s : Selector) (j : Nat) :
    (enforceSelector doc s)[j]? =
      doc[j]?.map fun e => if s.matchesElement doc e then enforceElement e else e := by
  unfold enforceSelector
  rw [foldl_updateElement_getElem?]
  cases he : doc[j]? with
  | none => rfl
  | some e =>
    rw [count_querySelectorAll doc s j e he]
    by_cases hm : s.matchesElement doc e = true <;> simp [hm]

theorem enforceSelector_frame (doc : Document) (s : Selector) :
    (enforceSelector doc s).map Element.frame = doc.map Element.frame := by
  apply List.ext_getElem?
  intro j
  rw [List.getElem?_map, List.getElem?_map, enforceSelector_getElem?]
  cases doc[j]? with
  | none => rfl
  | some e =>
    by_cases hm : s.matchesElement doc e = true <;> simp [hm, enforceElement_frame]

theorem foldl_enforceSelector_frame (sels : List Selector) (doc : Document) :
    (sels.foldl enforceSelector doc).map Element.frame = doc.map Element.frame := by
  induction sels generalizing doc with
  | nil => rfl
  | cons s rest ih => rw [List.foldl_cons, ih, enforceSelector_frame]

theorem foldl_enforceSelector_getElem? (sels : List Selector) (doc : Document) (j : Nat) :
    (sels.foldl enforceSelector doc)[j]? =
      doc[j]?.map fun e =>
        enforceElement^[sels.countP fun s => s.matchesElement doc e] e := by
  induction sels generalizing doc with
  | nil => cases h : doc[j]? <;> simp [h]
  | cons s rest ih =>
    rw [List.foldl_cons, ih, enforceSelector_getElem?]
    cases doc[j]? with
    | none => rfl
    | some e =>
      simp only [Option.map_some', List.countP_cons]
      congr 1
      have hd := enforceSelector_frame doc s
      by_cases hm : s.matchesElement doc e = true
      · have hc : (rest.countP fun t => t.matchesElement (enforceSelector doc s)
            (enforceElement e)) = rest.countP fun t => t.matchesElement doc e := by
          congr 1
          funext t
          exact matchesElement_congr hd (enforceElement_frame e) t
        simp only [hm, if_true, hc]
        rw [Function.iterate_succ_apply]
      · have hc : (rest.countP fun t => t.matchesElement (enforceSelector doc s) e)
            = rest.countP fun t => t.matchesElement doc e := by
          congr 1
          funext t
          exact matchesElement_congr hd rfl t
        simp [hm, hc]

/-- One pass applies the body of the inner loop to each element once per selector it
matches. -/
theorem fixDropdownColors_getElem? (doc : Document) (j : Nat) :
    (fixDropdownColors doc)[j]? =
      doc[j]?.map fun e => enforceElement^[matchCount doc e] e :=
  foldl_enforceSelector_getElem? selectors doc j

theorem fixDropdownColors_frame (doc : Document) :
    (fixDropdownColors doc).map Element.frame = doc.map Element.frame :=
  foldl_enforceSelector_frame selectors doc

/-! ## The loop body, iterated -/

theorem color_ne_background : ("color" : String) ≠ "background-color" := by decide

theorem blackOnWhite_idem (s : CSSStyleDeclaration) :
    blackOnWhite (blackOnWhite s) = blackOnWhite s :=
  setProperty_pair_twice s _ _ _ _ _ _ _ _ _ _ color_ne_background

theorem accent_idem (s : CSSStyleDeclaration) : accent (accent s) = accent s :=
  setProperty_pair_twice s _ _ _ _ _ _ _ _ _ _ color_ne_background.symm

theorem whiteUnderBlack_idem (s : CSSStyleDeclaration) :
    whiteUnderBlack (whiteUnderBlack s) = whiteUnderBlack s :=
  setProperty_pair_twice s _ _ _ _ _ _ _ _ _ _ color_ne_background.symm

theorem blackOnWhite_values (s : CSSStyleDeclaration) :
    getPropertyValue (blackOnWhite s) "color" = "#000000" ∧
    getPropertyPriority (blackOnWhite s) "color" = "important" ∧
    getPropertyValue (blackOnWhite s) "background-color" = "white" ∧
    getPropertyPriority (blackOnWhite s) "background-color" = "important" := by
  unfold blackOnWhite
  refine ⟨?_, ?_, getPropertyValue_setProperty _ _ _ _, getPropertyPriority_setProperty _ _ _ _⟩
  · rw [getPropertyValue_setProperty_ne _ _ _ _ _ color_ne_background.symm,
      getPropertyValue_setProperty]
  · rw [getPropertyPriority_setProperty_ne _ _ _ _ _ color_ne_background.symm,
      getPropertyPriority_setProperty]

theorem accent_values (s : CSSStyleDeclaration) :
    getPropertyValue (accent s) "background-color" = "#0066cc" ∧
    getPropertyPriority (accent s) "background-color" = "important" ∧
    getPropertyValue (accent s) "color" = "white" ∧
    getPropertyPriority (accent s) "color" = "important" := by
  unfold accent
  refine ⟨?_, ?_, getPropertyValue_setProperty _ _ _ _, getPropertyPriority_setProperty _ _ _ _⟩
  · rw [getPropertyValue_setProperty_ne _ _ _ _ _ color_ne_background,
      getPropertyValue_setProperty]
  · rw [getPropertyPriority_setProperty_ne _ _ _ _ _ color_ne_background,
      getPropertyPriority_setProperty]

theorem whiteUnderBlack_values (s : CSSStyleDeclaration) :
    getPropertyValue (whiteUnderBlack s) "color" = "#000000" ∧
    getPropertyPriority (whiteUnderBlack s) "color" = "important" ∧
    getPropertyValue (whiteUnderBlack s) "background-color" = "white" ∧
    getPropertyPriority (whiteUnderBlack s) "background-color" = "important" := by
  unfold whiteUnderBlack
  refine ⟨getPropertyValue_setProperty _ _ _ _, getPropertyPriority_setProperty _ _ _ _, ?_, ?_⟩
  · rw [getPropertyValue_setProperty_ne _ _ _ _ _ color_ne_background,
      getPropertyValue_setProperty]
  · rw [getPropertyPriority_setProperty_ne _ _ _ _ _ color_ne_background,
      getPropertyPriority_setProperty]

theorem registered_succ (k : Nat) :
    registered (k + 1) = registered k ++ [Listener.mouseenter, Listener.mouseleave] := by
  induction k with
  | zero => rfl
  | succ k ih =>
    calc registered (k + 1 + 1)
        = Listener.mouseenter :: Listener.mouseleave :: registered (k + 1) := rfl
      _ = Listener.mouseenter :: Listener.mouseleave ::
            (registered k ++ [Listener.mouseenter, Listener.mouseleave]) := by rw [ih]
      _ = registered (k + 1) ++ [Listener.mouseenter, Listener.mouseleave] := rfl

theorem registered_add (m n : Nat) : registered (m + n) = registered m ++ registered n := by
  induction n with
  | zero => simp [registered]
  | succ n ih => rw [← Nat.add_assoc, registered_succ, registered_succ, ih, List.append_assoc]

theorem count_mouseenter_registered (k : Nat) :
    (registered k).count Listener.mouseenter = k := by
  induction k with
  | zero => rfl
  | succ k ih => simp [registered, ih]

theorem count_mouseleave_registered (k : Nat) :
    (registered k).count Listener.mouseleave = k := by
  induction k with
  | zero => rfl
  | succ k ih => simp [registered, ih]

theorem iterate_enforceElement_listeners (k : Nat) (e : Element) :
    (enforceElement^[k] e).listeners = e.listeners ++ registered k := by
  induction k with
  | zero => simp [registered]
  | succ k ih =>
    rw [Function.iterate_succ_apply', registered_succ, ← List.append_assoc, ← ih]
    rfl

theorem iterate_enforceElement_style (k : Nat) (e : Element) :
    (enforceElement^[k] e).style = if k = 0 then e.style else blackOnWhite e.style := by
  induction k with
  | zero => rfl
  | succ k ih =>
    rw [Function.iterate_succ_apply']
    show blackOnWhite (enforceElement^[k] e).style = _
    rw [ih]
    by_cases hk : k = 0 <;> simp [hk, blackOnWhite_idem]

/-! ## Dispatch: lemmas -/

theorem styleOf_eq {doc : Document} {i : Nat} {e : Element} (h : doc[i]? = some e) :
    styleOf doc i = e.style := by
  simp [styleOf, h]

theorem listenersOf_eq {doc : Document} {i : Nat} {e : Element} (h : doc[i]? = some e) :
    listenersOf doc i = e.listeners := by
  simp [listenersOf, h]

theorem onMouseEnter_idem (e : Element) : onMouseEnter (onMouseEnter e) = onMouseEnter e := by
  show ({ e with style := accent (accent e.style) } : Element) = { e with style := accent e.style }
  rw [accent_idem]

theorem onMouseLeave_idem (e : Element) : onMouseLeave (onMouseLeave e) = onMouseLeave e := by
  by_cases h : e.classListContains "is-selected" = true
  · simp [onMouseLeave, h]
  · have h2 : ({ e with style := whiteUnderBlack e.style } : Element).classListContains
        "is-selected" = e.classListContains "is-selected" := rfl
    have h3 : onMouseLeave e = { e with style := whiteUnderBlack e.style } := by
      simp [onMouseLeave, h, whiteUnderBlack]
    rw [h3]
    have h4 : onMouseLeave { e with style := whiteUnderBlack e.style }
        = { e with style := whiteUnderBlack (whiteUnderBlack e.style) } := by
      simp [onMouseLeave, h, h2, whiteUnderBlack, Element.classListContains] at *
      simp [h]
    rw [h4, whiteUnderBlack_idem]

theorem iterate_of_idem {α : Type} (f : α → α) (hf : ∀ x, f (f x) = f x) (n : Nat) (x : α) :
    f^[n + 1] x = f x := by
  induction n with
  | zero => rfl
  | succ n ih => rw [Function.iterate_succ_apply', ih, hf]

theorem foldl_handle_mouseenter (l : List Listener) (a : Element) :
    (l.filter fun x => decide (x.type = "mouseenter")).foldl (fun acc x => x.handle acc) a
      = onMouseEnter^[l.count Listener.mouseenter] a := by
  induction l generalizing a with
  | nil => rfl
  | cons x l ih =>
    cases x with
    | mouseenter =>
      have hf : List.filter (fun x : Listener => decide (x.type = "mouseenter")) (Listener.mouseenter :: l)
          = Listener.mouseenter :: List.filter (fun x : Listener => decide (x.type = "mouseenter")) l :=
        List.filter_cons_of_pos (by decide)
      rw [hf, List.foldl_cons, ih, List.count_cons_self, Function.iterate_succ_apply]
      rfl
    | mouseleave =>
      have hf : List.filter (fun x : Listener => decide (x.type = "mouseenter")) (Listener.mouseleave :: l)
          = List.filter (fun x : Listener => decide (x.type = "mouseenter")) l :=
        List.filter_cons_of_neg (by decide)
      have hne : Listener.mouseleave ≠ Listener.mouseenter := by decide
      rw [hf, ih, List.count_cons_of_ne hne.symm]

theorem foldl_handle_mouseleave (l : List Listener) (a : Element) :
    (l.filter fun x => decide (x.type = "mouseleave")).foldl (fun acc x => x.handle acc) a
      = onMouseLeave^[l.count Listener.mouseleave] a := by
  induction l generalizing a with
  | nil => rfl
  | cons x l ih =>
    cases x with
    | mouseleave =>
      have hf : List.filter (fun x : Listener => decide (x.type = "mouseleave")) (Listener.mouseleave :: l)
          = Listener.mouseleave :: List.filter (fun x : Listener => decide (x.type = "mouseleave")) l :=
        List.filter_cons_of_pos (by decide)
      rw [hf, List.foldl_cons, ih, List.count_cons_self, Function.iterate_succ_apply]
      rfl
    | mouseenter =>
      have hf : List.filter (fun x : Listener => decide (x.type = "mouseleave")) (Listener.mouseenter :: l)
          = List.filter (fun x : Listener => decide (x.type = "mouseleave")) l :=
        List.filter_cons_of_neg (by decide)
      have hne : Listener.mouseenter ≠ Listener.mouseleave := by decide
      rw [hf, ih, List.count_cons_of_ne hne.symm]

theorem runListeners_mouseenter (e : Element) :
    runListeners "mouseenter" e =
      if e.listeners.count Listener.mouseenter = 0 then e else onMouseEnter e := by
  unfold runListeners
  rw [foldl_handle_mouseenter]
  cases h : e.listeners.count Listener.mouseenter with
  | zero => rfl
  | succ n => rw [iterate_of_idem _ onMouseEnter_idem]; simp

theorem runListeners_mouseleave (e : Element) :
    runListeners "mouseleave" e =
      if e.listeners.count Listener.mouseleave = 0 then e else onMouseLeave e := by
  unfold runListeners
  rw [foldl_handle_mouseleave]
  cases h : e.listeners.count Listener.mouseleave with
  | zero => rfl
  | succ n => rw [iterate_of_idem _ onMouseLeave_idem]; simp

theorem dispatchEvent_getElem? (doc : Document) (i : Nat) (type : String) :
    (dispatchEvent doc i type)[i]? = doc[i]?.map (runListeners type) := by
  simp [dispatchEvent, updateElement_getElem?]

theorem matchCount_pos {doc : Document} {e : Element} :
    0 < matchCount doc e ↔ ∃ s ∈ selectors, s.matchesElement doc e = true :=
  List.countP_pos_iff

/-- State of an element after one pass. -/
theorem fixDropdownColors_some {doc : Document} {i : Nat} {e : Element}
    (he : doc[i]? = some e) :
    (fixDropdownColors doc)[i]? = some (enforceElement^[matchCount doc e] e) := by
  rw [fixDropdownColors_getElem?, he]
  rfl

theorem iterate_fixDropdownColors_frame (n : Nat) (doc : Document) :
    (fixDropdownColors^[n] doc).map Element.frame = doc.map Element.frame := by
  induction n with
  | zero => rfl
  | succ n ih => rw [Function.iterate_succ_apply', fixDropdownColors_frame, ih]

/-- State of an element after `n` passes. -/
theorem iterate_fixDropdownColors_some (n : Nat) {doc : Document} {i : Nat} {e : Element}
    (he : doc[i]? = some e) :
    (fixDropdownColors^[n] doc)[i]? = some (enforceElement^[n * matchCount doc e] e) := by
  induction n with
  | zero => simpa using he
  | succ n ih =>
    rw [Function.iterate_succ_apply', fixDropdownColors_some ih]
    have hc : matchCount (fixDropdownColors^[n] doc) (enforceElement^[n * matchCount doc e] e)
        = matchCount doc e :=
      matchCount_congr (iterate_fixDropdownColors_frame n doc)
        (iterate_enforceElement_frame _ e)
    rw [hc, ← Function.iterate_add_apply]
    congr 2
    ring

/-! ## Claims on the automatic enforcement -/

/-- C1: every element matching at least one of the seven selectors has, after one
enforcement pass, inline `color` `#000000` and inline `background-color` `white`, both with
priority `important`, whatever its inline style and class list were before. -/
theorem enforcement_forces_black_on_white (doc : Document) (i : Nat) (e : Element)
    (he : doc[i]? = some e) (hm : ∃ s ∈ selectors, s.matchesElement doc e = true) :
    IsBlackOnWhite (styleOf (fixDropdownColors doc) i) := by
  have hk : 0 < matchCount doc e := matchCount_pos.mpr hm
  rw [styleOf_eq (fixDropdownColors_some he), iterate_enforceElement_style,
    if_neg (Nat.pos_iff_ne_zero.mp hk)]
  exact blackOnWhite_values e.style

/-- Witness of C1: the selected option of `menuDocument`, whose inline style is
white-on-blue before the pass. -/
theorem enforcement_forces_black_on_white_witness :
    menuDocument[2]? = some selectedOption ∧
    (∃ s ∈ selectors, s.matchesElement menuDocument selectedOption = true) ∧
    IsBlackOnWhite (styleOf (fixDropdownColors menuDocument) 2) :=
  ⟨rfl, ⟨Selector.byClass "Select-option", by decide, by decide⟩,
    enforcement_forces_black_on_white menuDocument 2 selectedOption rfl
      ⟨Selector.byClass "Select-option", by decide, by decide⟩⟩

/-- C2: a second enforcement pass on an unchanged document leaves every element with the
inline style (declarations, values, priorities) the first pass gave it. -/
theorem enforcement_style_idempotent (doc : Document) (i : Nat) :
    styleOf (fixDropdownColors (fixDropdownColors doc)) i
      = styleOf (fixDropdownColors doc) i := by
  cases he : doc[i]? with
  | none =>
    have h1 : (fixDropdownColors doc)[i]? = none := by
      rw [fixDropdownColors_getElem?, he]; rfl
    have h2 : (fixDropdownColors (fixDropdownColors doc))[i]? = none := by
      rw [fixDropdownColors_getElem?, h1]; rfl
    simp [styleOf, h1, h2]
  | some e =>
    have h1 := fixDropdownColors_some he
    have h2 := fixDropdownColors_some h1
    have hc : matchCount (fixDropdownColors doc) (enforceElement^[matchCount doc e] e)
        = matchCount doc e :=
      matchCount_congr (fixDropdownColors_frame doc) (iterate_enforceElement_frame _ e)
    rw [styleOf_eq h2, styleOf_eq h1, hc, iterate_enforceElement_style,
      iterate_enforceElement_style]
    by_cases hk : matchCount doc e = 0 <;> simp [hk, blackOnWhite_idem]

/-- C3, as stated, fails: on `menuDocument` the second pass leaves the selected option
with more listeners than the first pass did. -/
theorem enforcement_listeners_not_idempotent :
    ¬ (styleOf (fixDropdownColors (fixDropdownColors menuDocument)) 2
          = styleOf (fixDropdownColors menuDocument) 2 ∧
        listenersOf (fixDropdownColors (fixDropdownColors menuDocument)) 2
          = listenersOf (fixDropdownColors menuDocument) 2) := by
  decide

/-- C3, amended: a second pass on an unchanged document leaves every inline style as the
first pass did, and appends to the listeners of each element one more `mouseenter` and one
more `mouseleave` listener per selector the element matches. -/
theorem enforcement_twice (doc : Document) (i : Nat) (e : Element) (he : doc[i]? = some e) :
    styleOf (fixDropdownColors (fixDropdownColors doc)) i
      = styleOf (fixDropdownColors doc) i ∧
    listenersOf (fixDropdownColors doc) i = e.listeners ++ registered (matchCount doc e) ∧
    listenersOf (fixDropdownColors (fixDropdownColors doc)) i
      = listenersOf (fixDropdownColors doc) i ++ registered (matchCount doc e) := by
  have h1 := fixDropdownColors_some he
  have h2 := fixDropdownColors_some h1
  have hc : matchCount (fixDropdownColors doc) (enforceElement^[matchCount doc e] e)
      = matchCount doc e :=
    matchCount_congr (fixDropdownColors_frame doc) (iterate_enforceElement_frame _ e)
  refine ⟨?_, ?_, ?_⟩
  · rw [styleOf_eq h2, styleOf_eq h1, hc, iterate_enforceElement_style,
      iterate_enforceElement_style]
    by_cases hk : matchCount doc e = 0 <;> simp [hk, blackOnWhite_idem]
  · rw [listenersOf_eq h1, iterate_enforceElement_listeners]
  · rw [listenersOf_eq h2, listenersOf_eq h1, hc, iterate_enforceElement_listeners]

/-- Witness of the amended C3: the option of `menuDocument` that is not selected matches
three selectors. -/
theorem enforcement_twice_witness :
    menuDocument[3]? = some plainOption ∧
    styleOf (fixDropdownColors (fixDropdownColors menuDocument)) 3
      = styleOf (fixDropdownColors menuDocument) 3 ∧
    listenersOf (fixDropdownColors menuDocument) 3
      = plainOption.listeners ++ registered (matchCount menuDocument plainOption) ∧
    listenersOf (fixDropdownColors (fixDropdownColors menuDocument)) 3
      = listenersOf (fixDropdownColors menuDocument) 3 ++
        registered (matchCount menuDocument plainOption) :=
  ⟨rfl, enforcement_twice menuDocument 3 plainOption rfl⟩

/-! ## Claims on hovering -/

/-- Element reached by dispatching `mouseenter` at an element that carries at least one
`mouseenter` listener. -/
theorem dispatch_mouseenter_some {doc : Document} {i : Nat} {e : Element}
    (he : doc[i]? = some e) (hc : 0 < e.listeners.count Listener.mouseenter) :
    (dispatchEvent doc i "mouseenter")[i]? = some (onMouseEnter e) := by
  rw [dispatchEvent_getElem?, he, Option.map_some', runListeners_mouseenter,
    if_neg (Nat.pos_iff_ne_zero.mp hc)]

/-- Element reached by dispatching `mouseleave` at an element that carries at least one
`mouseleave` listener. -/
theorem dispatch_mouseleave_some {doc : Document} {i : Nat} {e : Element}
    (he : doc[i]? = some e) (hc : 0 < e.listeners.count Listener.mouseleave) :
    (dispatchEvent doc i "mouseleave")[i]? = some (onMouseLeave e) := by
  rw [dispatchEvent_getElem?, he, Option.map_some', runListeners_mouseleave,
    if_neg (Nat.pos_iff_ne_zero.mp hc)]

theorem count_mouseenter_enforced (k : Nat) (e : Element) :
    (enforceElement^[k] e).listeners.count Listener.mouseenter
      = e.listeners.count Listener.mouseenter + k := by
  rw [iterate_enforceElement_listeners, List.count_append, count_mouseenter_registered]

theorem count_mouseleave_enforced (k : Nat) (e : Element) :
    (enforceElement^[k] e).listeners.count Listener.mouseleave
      = e.listeners.count Listener.mouseleave + k := by
  rw [iterate_enforceElement_listeners, List.count_append, count_mouseleave_registered]

theorem classListContains_enforced (k : Nat) (e : Element) (token : String) :
    (enforceElement^[k] e).classListContains token = e.classListContains token := by
  have h := iterate_enforceElement_frame k e
  have h1 : ∀ x : Element, x.classListContains token = x.frame.classListContains token :=
    fun _ => rfl
  rw [h1, h, ← h1]

/-- The three states of a hovered element: after `k ≥ 1` runs of the loop body, after a
following `mouseenter`, after a following `mouseleave`. -/
theorem hover_states {doc : Document} {i : Nat} {e : Element} {k : Nat}
    (he : doc[i]? = some (enforceElement^[k] e)) (hk : 0 < k) :
    (dispatchEvent doc i "mouseenter")[i]? = some (onMouseEnter (enforceElement^[k] e)) ∧
    (dispatchEvent (dispatchEvent doc i "mouseenter") i "mouseleave")[i]?
      = some (onMouseLeave (onMouseEnter (enforceElement^[k] e))) := by
  have h2 : (dispatchEvent doc i "mouseenter")[i]? = some (onMouseEnter (enforceElement^[k] e)) :=
    dispatch_mouseenter_some he (by rw [count_mouseenter_enforced]; omega)
  refine ⟨h2, dispatch_mouseleave_some h2 ?_⟩
  show 0 < (enforceElement^[k] e).listeners.count Listener.mouseleave
  rw [count_mouseleave_enforced]; omega

/-- C4: for an element matched by an enforcement pass, a `mouseenter` dispatched afterwards
sets inline `background-color` to `#0066cc` and `color` to `white`, both `important`; a
following `mouseleave` restores `color` `#000000` and `background-color` `white`, both
`important`, when the class list lacks `is-selected`, and leaves the inline style as the
`mouseenter` left it when the class list contains `is-selected`. -/
theorem hover_after_enforcement (doc : Document) (i : Nat) (e : Element)
    (he : doc[i]? = some e) (hm : ∃ s ∈ selectors, s.matchesElement doc e = true) :
    IsAccent (styleOf (dispatchEvent (fixDropdownColors doc) i "mouseenter") i) ∧
    (e.classListContains "is-selected" = false →
      IsBlackOnWhite (styleOf (dispatchEvent
        (dispatchEvent (fixDropdownColors doc) i "mouseenter") i "mouseleave") i)) ∧
    (e.classListContains "is-selected" = true →
      styleOf (dispatchEvent
        (dispatchEvent (fixDropdownColors doc) i "mouseenter") i "mouseleave") i
        = styleOf (dispatchEvent (fixDropdownColors doc) i "mouseenter") i) := by
  have hk : 0 < matchCount doc e := matchCount_pos.mpr hm
  obtain ⟨h2, h3⟩ := hover_states (fixDropdownColors_some he) hk
  have hsel : (onMouseEnter (enforceElement^[matchCount doc e] e)).classListContains
      "is-selected" = e.classListContains "is-selected" :=
    classListContains_enforced _ e _
  rw [styleOf_eq h2, styleOf_eq h3]
  refine ⟨accent_values _, ?_, ?_⟩
  · intro hs
    have h4 : (onMouseLeave (onMouseEnter (enforceElement^[matchCount doc e] e))).style
        = whiteUnderBlack (onMouseEnter (enforceElement^[matchCount doc e] e)).style := by
      simp [onMouseLeave, hsel, hs, whiteUnderBlack]
    rw [h4]
    exact whiteUnderBlack_values _
  · intro hs
    simp [onMouseLeave, hsel, hs]

/-- Witness of C4: the selected option of `menuDocument`. -/
theorem hover_after_enforcement_witness :
    menuDocument[2]? = some selectedOption ∧
    (∃ s ∈ selectors, s.matchesElement menuDocument selectedOption = true) ∧
    IsAccent (styleOf (dispatchEvent (fixDropdownColors menuDocument) 2 "mouseenter") 2) ∧
    (selectedOption.classListContains "is-selected" = false →
      IsBlackOnWhite (styleOf (dispatchEvent
        (dispatchEvent (fixDropdownColors menuDocument) 2 "mouseenter") 2 "mouseleave") 2)) ∧
    (selectedOption.classListContains "is-selected" = true →
      styleOf (dispatchEvent
        (dispatchEvent (fixDropdownColors menuDocument) 2 "mouseenter") 2 "mouseleave") 2
        = styleOf (dispatchEvent (fixDropdownColors menuDocument) 2 "mouseenter") 2) :=
  ⟨rfl, ⟨Selector.byClass "Select-option", by decide, by decide⟩,
    hover_after_enforcement menuDocument 2 selectedOption rfl
      ⟨Selector.byClass "Select-option", by decide, by decide⟩⟩
theorem classListContains_of_frame {x y : Element} (h : x.frame = y.frame) (token : String) :
    x.classListContains token = y.classListContains token := by
  have h1 : ∀ z : Element, z.classListContains token = z.frame.classListContains token :=
    fun _ => rfl
  rw [h1 x, h, ← h1]

theorem onMouseEnter_alike {x y : Element} (h : Alike x y) :
    Alike (onMouseEnter x) (onMouseEnter y) := by
  obtain ⟨hs, hf, he, hl⟩ := h
  refine ⟨?_, hf, he, hl⟩
  show accent x.style = accent y.style
  rw [hs]

theorem onMouseLeave_alike {x y : Element} (h : Alike x y) :
    Alike (onMouseLeave x) (onMouseLeave y) := by
  have hc := classListContains_of_frame h.2.1 "is-selected"
  by_cases hsel : y.classListContains "is-selected" = true
  · have hx : onMouseLeave x = x := by simp [onMouseLeave, hc, hsel]
    have hy : onMouseLeave y = y := by simp [onMouseLeave, hsel]
    rw [hx, hy]; exact h
  · have hx : onMouseLeave x = { x with style := whiteUnderBlack x.style } := by
      simp [onMouseLeave, hc, hsel, whiteUnderBlack]
    have hy : onMouseLeave y = { y with style := whiteUnderBlack y.style } := by
      simp [onMouseLeave, hsel, whiteUnderBlack]
    rw [hx, hy]
    obtain ⟨hs, hf, he, hl⟩ := h
    refine ⟨?_, hf, he, hl⟩
    show whiteUnderBlack x.style = whiteUnderBlack y.style
    rw [hs]

theorem runListeners_mouseenter_alike {x y : Element} (h : Alike x y) :
    Alike (runListeners "mouseenter" x) (runListeners "mouseenter" y) := by
  rw [runListeners_mouseenter, runListeners_mouseenter]
  by_cases hc : y.listeners.count Listener.mouseenter = 0
  · rw [if_pos hc, if_pos (h.2.2.1.mpr hc)]; exact h
  · rw [if_neg hc, if_neg (fun hx => hc (h.2.2.1.mp hx))]; exact onMouseEnter_alike h

theorem runListeners_mouseleave_alike {x y : Element} (h : Alike x y) :
    Alike (runListeners "mouseleave" x) (runListeners "mouseleave" y) := by
  rw [runListeners_mouseleave, runListeners_mouseleave]
  by_cases hc : y.listeners.count Listener.mouseleave = 0
  · rw [if_pos hc, if_pos (h.2.2.2.mpr hc)]; exact h
  · rw [if_neg hc, if_neg (fun hx => hc (h.2.2.2.mp hx))]; exact onMouseLeave_alike h

theorem enforced_alike (e : Element) (n k : Nat) (hn : 1 ≤ n) :
    Alike (enforceElement^[n * k] e) (enforceElement^[k] e) := by
  have hz : n * k = 0 ↔ k = 0 := by
    constructor
    · intro h
      rcases Nat.mul_eq_zero.mp h with h | h
      · omega
      · exact h
    · intro h; simp [h]
  refine ⟨?_, ?_, ?_, ?_⟩
  · rw [iterate_enforceElement_style, iterate_enforceElement_style]
    by_cases hk : k = 0
    · rw [if_pos hk, if_pos (hz.mpr hk)]
    · rw [if_neg hk, if_neg (fun h => hk (hz.mp h))]
  · rw [iterate_enforceElement_frame, iterate_enforceElement_frame]
  · rw [count_mouseenter_enforced, count_mouseenter_enforced]; omega
  · rw [count_mouseleave_enforced, count_mouseleave_enforced]; omega

theorem dispatchEvent_some {doc : Document} {i : Nat} {x : Element} (h : doc[i]? = some x)
    (type : String) : (dispatchEvent doc i type)[i]? = some (runListeners type x) := by
  rw [dispatchEvent_getElem?, h]; rfl

/-- C9: each pass appends, on every element, one `mouseenter` and one `mouseleave`
listener per selector the element matches, so after `n` passes an element matching `k`
selectors carries `n * k` more listeners of each kind than before; yet for `n ≥ 1` the
inline style reached by dispatching `mouseenter`, or `mouseenter` then `mouseleave`, after
`n` passes is the one reached by the same dispatch after a single pass. -/
theorem hover_stable_under_repeated_enforcement (doc : Document) (i : Nat) (e : Element)
    (he : doc[i]? = some e) (n : Nat) (hn : 1 ≤ n) :
    (∀ m, listenersOf (fixDropdownColors^[m + 1] doc) i
        = listenersOf (fixDropdownColors^[m] doc) i ++ registered (matchCount doc e)) ∧
    (listenersOf (fixDropdownColors^[n] doc) i).count Listener.mouseenter
      = e.listeners.count Listener.mouseenter + n * matchCount doc e ∧
    (listenersOf (fixDropdownColors^[n] doc) i).count Listener.mouseleave
      = e.listeners.count Listener.mouseleave + n * matchCount doc e ∧
    styleOf (dispatchEvent (fixDropdownColors^[n] doc) i "mouseenter") i
      = styleOf (dispatchEvent (fixDropdownColors doc) i "mouseenter") i ∧
    styleOf (dispatchEvent (dispatchEvent (fixDropdownColors^[n] doc) i "mouseenter") i
        "mouseleave") i
      = styleOf (dispatchEvent (dispatchEvent (fixDropdownColors doc) i "mouseenter") i
        "mouseleave") i := by
  have hn1 := iterate_fixDropdownColors_some n he
  have h1 := fixDropdownColors_some he
  have ha := enforced_alike e n (matchCount doc e) hn
  have ha1 := runListeners_mouseenter_alike ha
  have ha2 := runListeners_mouseleave_alike ha1
  refine ⟨?_, ?_, ?_, ?_, ?_⟩
  · intro m
    rw [listenersOf_eq (iterate_fixDropdownColors_some (m + 1) he),
      listenersOf_eq (iterate_fixDropdownColors_some m he), iterate_enforceElement_listeners,
      iterate_enforceElement_listeners, Nat.succ_mul, registered_add, List.append_assoc]
  · rw [listenersOf_eq hn1, count_mouseenter_enforced]
  · rw [listenersOf_eq hn1, count_mouseleave_enforced]
  · rw [styleOf_eq (dispatchEvent_some hn1 "mouseenter"),
      styleOf_eq (dispatchEvent_some h1 "mouseenter")]
    exact ha1.1
  · rw [styleOf_eq (dispatchEvent_some (dispatchEvent_some hn1 "mouseenter") "mouseleave"),
      styleOf_eq (dispatchEvent_some (dispatchEvent_some h1 "mouseenter") "mouseleave")]
    exact ha2.1

/-- Witness of C9: three passes over `menuDocument`, at the option that is not selected. -/
theorem hover_stable_under_repeated_enforcement_witness :
    menuDocument[3]? = some plainOption ∧ 1 ≤ 3 ∧
    (∀ m, listenersOf (fixDropdownColors^[m + 1] menuDocument) 3
        = listenersOf (fixDropdownColors^[m] menuDocument) 3 ++
          registered (matchCount menuDocument plainOption)) ∧
    (listenersOf (fixDropdownColors^[3] menuDocument) 3).count Listener.mouseenter
      = plainOption.listeners.count Listener.mouseenter + 3 * matchCount menuDocument plainOption ∧
    (listenersOf (fixDropdownColors^[3] menuDocument) 3).count Listener.mouseleave
      = plainOption.listeners.count Listener.mouseleave + 3 * matchCount menuDocument plainOption ∧
    styleOf (dispatchEvent (fixDropdownColors^[3] menuDocument) 3 "mouseenter") 3
      = styleOf (dispatchEvent (fixDropdownColors menuDocument) 3 "mouseenter") 3 ∧
    styleOf (dispatchEvent (dispatchEvent (fixDropdownColors^[3] menuDocument) 3 "mouseenter") 3
        "mouseleave") 3
      = styleOf (dispatchEvent (dispatchEvent (fixDropdownColors menuDocument) 3 "mouseenter") 3
        "mouseleave") 3 :=
  ⟨rfl, by decide,
    hover_stable_under_repeated_enforcement menuDocument 3 plainOption rfl 3 (by decide)⟩

/-! ## Claims on the observer -/

theorem querySelector_isSome (doc : Document) (i : Nat) (s : Selector) :
    (querySelector doc i s).isSome = true ↔
      HasDescendant doc i (fun d => s.matchesElement doc d = true) := by
  unfold querySelector HasDescendant
  rw [List.find?_isSome]
  constructor
  · rintro ⟨j, _, hj⟩
    cases hd : doc[j]? with
    | none => simp [hd] at hj
    | some d =>
      simp only [hd, Bool.and_eq_true, List.elem_eq_mem, decide_eq_true_eq] at hj
      exact ⟨j, d, hd, hj.1, hj.2⟩
  · rintro ⟨j, d, hd, ha, hm⟩
    refine ⟨j, ?_, ?_⟩
    · obtain ⟨h, _⟩ := List.getElem?_eq_some.mp hd
      exact List.mem_range.mpr h
    · simp [hd, ha, hm]

theorem isOrContainsDropdown_iff (doc : Document) (i : Nat) (e : Element)
    (he : doc[i]? = some e) :
    isOrContainsDropdown doc i e = true ↔ QualifyingNode doc (Node.element i) := by
  unfold isOrContainsDropdown QualifyingNode
  simp only [Bool.or_eq_true, querySelector_isSome, Selector.matchesElement,
    decide_eq_true_eq]
  constructor
  · intro h
    refine ⟨rfl, i, e, rfl, he, ?_⟩
    tauto
  · rintro ⟨_, i2, e2, hn, he2, h⟩
    cases hn
    rw [he] at he2
    cases he2
    tauto

theorem visitAddedNode_eq (doc : Document) (b : Bool) (node : Node) :
    visitAddedNode doc b node = true ↔ b = true ∨ QualifyingNode doc node := by
  have hother : node.nodeType ≠ 1 → (visitAddedNode doc b node = true ↔
      b = true ∨ QualifyingNode doc node) := by
    intro hne
    have hv : visitAddedNode doc b node = b := by
      cases node <;> first | rfl | exact absurd rfl hne
    rw [hv]
    constructor
    · exact Or.inl
    · rintro (h | ⟨h1, _⟩)
      · exact h
      · exact absurd h1 hne
  cases node with
  | text => exact hother (by decide)
  | cdataSection => exact hother (by decide)
  | processingInstruction => exact hother (by decide)
  | comment => exact hother (by decide)
  | element i =>
    cases he : doc[i]? with
    | none =>
      simp only [visitAddedNode, he, QualifyingNode]
      constructor
      · exact Or.inl
      · rintro (h | ⟨_, i2, e2, hn, he2, _⟩)
        · exact h
        · cases hn; rw [he] at he2; cases he2
    | some e =>
      simp only [visitAddedNode, he]
      rw [← isOrContainsDropdown_iff doc i e he]
      by_cases hq : isOrContainsDropdown doc i e = true <;> simp [hq]

theorem foldl_visitAddedNode (doc : Document) (nodes : List Node) (b : Bool) :
    nodes.foldl (visitAddedNode doc) b = true ↔
      b = true ∨ ∃ node ∈ nodes, QualifyingNode doc node := by
  induction nodes generalizing b with
  | nil => simp
  | cons n ns ih =>
    rw [List.foldl_cons, ih, visitAddedNode_eq]
    simp only [List.mem_cons, exists_eq_or_imp]
    tauto

theorem visitMutation_eq (doc : Document) (b : Bool) (m : MutationRecord) :
    visitMutation doc b m = true ↔
      b = true ∨ (m.type = "childList" ∧ ∃ node ∈ m.addedNodes, QualifyingNode doc node) := by
  unfold visitMutation
  by_cases ht : m.type = "childList"
  · rw [if_pos ht, foldl_visitAddedNode]; tauto
  · rw [if_neg ht]; tauto

theorem foldl_visitMutation (doc : Document) (ms : List MutationRecord) (b : Bool) :
    ms.foldl (visitMutation doc) b = true ↔ b = true ∨ HasQualifyingNode doc ms := by
  induction ms generalizing b with
  | nil => simp [HasQualifyingNode]
  | cons m ms ih =>
    have key : HasQualifyingNode doc (m :: ms) ↔
        (m.type = "childList" ∧ ∃ node ∈ m.addedNodes, QualifyingNode doc node) ∨
          HasQualifyingNode doc ms := by
      simp [HasQualifyingNode]
    rw [List.foldl_cons, ih, visitMutation_eq, key, or_assoc]

/-- The callback sets its one timeout exactly for the batches with a qualifying node. -/
theorem observerCallback_eq (doc : Document) (ms : List MutationRecord) :
    (HasQualifyingNode doc ms → observerCallback doc ms = [⟨Callback.fixDropdownColors, 100⟩]) ∧
    (¬ HasQualifyingNode doc ms → observerCallback doc ms = []) := by
  have h := foldl_visitMutation doc ms false
  simp only [Bool.false_eq_true, false_or] at h
  unfold observerCallback
  constructor
  · intro hq; rw [if_pos (h.mpr hq)]
  · intro hq; rw [if_neg (fun hf => hq (h.mp hf))]

/-! ## Claims on the selectors -/

theorem includesChars_iff (search l : List Char) :
    includesChars search l = true ↔ search <:+: l := by
  induction l with
  | nil => simp [includesChars, List.infix_nil, List.isEmpty_iff]
  | cons c cs ih =>
    rw [includesChars, Bool.or_eq_true, ih, List.isPrefixOf_iff_prefix, List.infix_cons_iff]

theorem includes_iff (s sub : String) : includes s sub = true ↔ ContainsSubstring s sub :=
  includesChars_iff _ _

theorem matches_classDescendant {doc : Document} {e : Element} {name tag : String}
    (ht : e.localName = tag) (hin : InsideClass doc e name) :
    (Selector.classDescendant name tag).matchesElement doc e = true := by
  obtain ⟨j, a, hj, ha, hc⟩ := hin
  simp only [Selector.matchesElement, Bool.and_eq_true, decide_eq_true_eq, List.any_eq_true]
  exact ⟨ht, j, hj, by simp [ha, hc]⟩

/-- C5, as stated, fails: the container `div.Select-menu-outer` of `menuDocument` carries
one of the listed class names, matches none of the seven selectors and keeps its inline
style through a pass. -/
theorem menu_container_not_matched :
    menuDocument[1]? = some ⟨"div", false, some 0, "Select-menu-outer", none, [], []⟩ ∧
    Element.classListContains ⟨"div", false, some 0, "Select-menu-outer", none, [], []⟩
      "Select-menu-outer" = true ∧
    (∀ s ∈ selectors, s.matchesElement menuDocument
      ⟨"div", false, some 0, "Select-menu-outer", none, [], []⟩ = false) ∧
    styleOf (fixDropdownColors menuDocument) 1 = [] ∧
    ¬ IsBlackOnWhite (styleOf (fixDropdownColors menuDocument) 1) := by
  decide

/-- C5, amended: an element whose `role` is `option`, or whose `class` attribute contains
`option` or `Option`, or that carries the class `Select-option` or `dropdown-item`, or
that is a `div` inside an element carrying the class `Select-menu` or `Select-menu-outer`,
matches one of the seven selectors and is black-on-white after a pass. -/
theorem selector_contract (doc : Document) (i : Nat) (e : Element) (he : doc[i]? = some e)
    (h : e.role = some "option" ∨ ContainsSubstring e.classAttr "option" ∨
      ContainsSubstring e.classAttr "Option" ∨ e.classListContains "Select-option" = true ∨
      e.classListContains "dropdown-item" = true ∨
      (e.localName = "div" ∧
        (InsideClass doc e "Select-menu" ∨ InsideClass doc e "Select-menu-outer"))) :
    (∃ s ∈ selectors, s.matchesElement doc e = true) ∧
    IsBlackOnWhite (styleOf (fixDropdownColors doc) i) := by
  have hm : ∃ s ∈ selectors, s.matchesElement doc e = true := by
    rcases h with h | h | h | h | h | ⟨hd, h | h⟩
    · exact ⟨Selector.roleEquals "option", by decide, by simp [Selector.matchesElement, h]⟩
    · refine ⟨Selector.classSubstring "option", by decide, ?_⟩
      have h1 := (includes_iff _ _).mpr h
      simp only [Selector.matchesElement, h1, Bool.and_true]
      decide
    · refine ⟨Selector.classSubstring "Option", by decide, ?_⟩
      have h1 := (includes_iff _ _).mpr h
      simp only [Selector.matchesElement, h1, Bool.and_true]
      decide
    · exact ⟨Selector.byClass "Select-option", by decide, h⟩
    · exact ⟨Selector.byClass "dropdown-item", by decide, h⟩
    · exact ⟨Selector.classDescendant "Select-menu" "div", by decide,
        matches_classDescendant hd h⟩
    · exact ⟨Selector.classDescendant "Select-menu-outer" "div", by decide,
        matches_classDescendant hd h⟩
  refine ⟨hm, ?_⟩
  have hk : 0 < matchCount doc e := matchCount_pos.mpr hm
  rw [styleOf_eq (fixDropdownColors_some he), iterate_enforceElement_style,
    if_neg (Nat.pos_iff_ne_zero.mp hk)]
  exact blackOnWhite_values e.style

/-- Witness of the amended C5: `plainOption` is a `div` inside the `div.Select-menu-outer`
of `menuDocument`. -/
theorem selector_contract_witness :
    menuDocument[3]? = some plainOption ∧
    (plainOption.localName = "div" ∧ InsideClass menuDocument plainOption "Select-menu-outer") ∧
    (∃ s ∈ selectors, s.matchesElement menuDocument plainOption = true) ∧
    IsBlackOnWhite (styleOf (fixDropdownColors menuDocument) 3) :=
  have hin : InsideClass menuDocument plainOption "Select-menu-outer" :=
    ⟨1, ⟨"div", false, some 0, "Select-menu-outer", none, [], []⟩, by decide, rfl, by decide⟩
  ⟨rfl, ⟨rfl, hin⟩,
    selector_contract menuDocument 3 plainOption rfl
      (Or.inr (Or.inr (Or.inr (Or.inr (Or.inr ⟨rfl, Or.inr hin⟩)))))⟩

/-- C6, as stated, fails: in `itemDocument` the added wrapper contains an element that the
enforcement matches by `.dropdown-item`, and the callback sets no timeout. -/
theorem observer_ignores_dropdown_item :
    HasDescendant itemDocument 0
      (fun d => ∃ s ∈ selectors, s.matchesElement itemDocument d = true) ∧
    observerCallback itemDocument [⟨"childList", [Node.element 0]⟩] = [] :=
  ⟨⟨1, ⟨"a", false, some 0, "dropdown-item", none, [], []⟩, rfl, by decide,
    Selector.byClass "dropdown-item", by decide, by decide⟩, by decide⟩

/-- C6, amended: when some `childList` record has an added element node that has the class
`Select-menu` or `Select-menu-outer`, or that has a descendant matching `.Select-option`
or `[role="option"]`, the callback sets one timeout of 100 ms for `fixDropdownColors`. -/
theorem observer_schedules_enforcement (doc : Document) (mutations : List MutationRecord)
    (h : HasQualifyingNode doc mutations) :
    observerCallback doc mutations = [⟨Callback.fixDropdownColors, 100⟩] :=
  (observerCallback_eq doc mutations).1 h

theorem hasDescendant_class_iff (doc : Document) (i : Nat) (name : String) :
    HasDescendant doc i (fun d => d.classListContains name = true) ↔
      (querySelector doc i (Selector.byClass name)).isSome = true :=
  (querySelector_isSome doc i (Selector.byClass name)).symm

theorem hasDescendant_role_iff (doc : Document) (i : Nat) (value : String) :
    HasDescendant doc i (fun d => d.role = some value) ↔
      (querySelector doc i (Selector.roleEquals value)).isSome = true := by
  rw [querySelector_isSome]
  simp [HasDescendant, Selector.matchesElement]

/-- Witness of the amended C6: the body of `menuDocument`, inserted with the menu below it,
has a descendant matching `.Select-option`. -/
theorem observer_schedules_enforcement_witness :
    HasQualifyingNode menuDocument [⟨"childList", [Node.element 0]⟩] ∧
    observerCallback menuDocument [⟨"childList", [Node.element 0]⟩]
      = [⟨Callback.fixDropdownColors, 100⟩] :=
  have hq : HasQualifyingNode menuDocument [⟨"childList", [Node.element 0]⟩] :=
    ⟨_, List.mem_singleton.mpr rfl, rfl, _, List.mem_singleton.mpr rfl, rfl, 0, _, rfl, rfl,
      Or.inr (Or.inr (Or.inl ((hasDescendant_class_iff _ _ _).mpr (by decide))))⟩
  ⟨hq, observer_schedules_enforcement _ _ hq⟩

/-- C10: the callback sets no timeout for a batch in which no `childList` record has an
added element node with class `Select-menu` or `Select-menu-outer` or with a descendant
matching `.Select-option` or `[role="option"]`; in particular the insertion of a node that
is itself an option, without menu class and without such a descendant, sets none; and a
batch with qualifying nodes, however many, sets exactly one. -/
theorem observer_schedules_only_for_qualifying_nodes (doc : Document)
    (mutations : List MutationRecord) :
    (¬ HasQualifyingNode doc mutations → observerCallback doc mutations = []) ∧
    (∀ (i : Nat) (e : Element), doc[i]? = some e →
      (e.role = some "option" ∨ e.classListContains "Select-option" = true) →
      e.classListContains "Select-menu" = false →
      e.classListContains "Select-menu-outer" = false →
      ¬ HasDescendant doc i (fun d => d.classListContains "Select-option" = true) →
      ¬ HasDescendant doc i (fun d => d.role = some "option") →
      observerCallback doc [⟨"childList", [Node.element i]⟩] = []) ∧
    (HasQualifyingNode doc mutations →
      (observerCallback doc mutations).length = 1 ∧
      observerCallback doc mutations = [⟨Callback.fixDropdownColors, 100⟩]) := by
  refine ⟨(observerCallback_eq doc mutations).2, ?_, ?_⟩
  · intro i e he _ h1 h2 h3 h4
    apply (observerCallback_eq doc _).2
    rintro ⟨m, hm, _, node, hn, _, i2, e2, hi, he2, hq⟩
    rw [List.mem_singleton] at hm
    subst hm
    rw [List.mem_singleton] at hn
    subst hn
    cases hi
    rw [he] at he2
    cases he2
    rcases hq with hq | hq | hq | hq
    · rw [h1] at hq; cases hq
    · rw [h2] at hq; cases hq
    · exact h3 hq
    · exact h4 hq
  · intro h
    have := (observerCallback_eq doc mutations).1 h
    rw [this]
    exact ⟨rfl, rfl⟩

/-- Witness of C10 on `menuDocument`: inserting the option with handle 3 alone sets no
timeout; a batch inserting the body and the menu container, both qualifying, sets one. -/
theorem observer_schedules_only_for_qualifying_nodes_witness :
    observerCallback menuDocument [⟨"childList", [Node.element 3]⟩] = [] ∧
    (observerCallback menuDocument
        [⟨"childList", [Node.element 0]⟩, ⟨"childList", [Node.text, Node.element 1]⟩]).length
      = 1 :=
  ⟨(observer_schedules_only_for_qualifying_nodes menuDocument []).2.1 3 _ rfl
      (Or.inr (by decide)) (by decide) (by decide)
      (fun h => absurd ((hasDescendant_class_iff _ _ _).mp h) (by decide))
      (fun h => absurd ((hasDescendant_role_iff _ _ _).mp h) (by decide)),
    ((observer_schedules_only_for_qualifying_nodes menuDocument
      [⟨"childList", [Node.element 0]⟩, ⟨"childList", [Node.text, Node.element 1]⟩]).2.2
      ⟨_, List.mem_cons_self _ _, rfl, _, List.mem_singleton.mpr rfl, rfl, 0, _, rfl, rfl,
        Or.inr (Or.inr (Or.inl ((hasDescendant_class_iff _ _ _).mpr (by decide))))⟩).1⟩

/-! ## Manual sweep: lemmas -/

theorem forceColors_frame (e : Element) : (forceColors e).frame = e.frame := rfl

theorem updateElement_frame (doc : Document) (i : Nat) (f : Element → Element)
    (hf : ∀ e, (f e).frame = e.frame) :
    (updateElement doc i f).map Element.frame = doc.map Element.frame := by
  apply List.ext_getElem?
  intro j
  rw [List.getElem?_map, List.getElem?_map, updateElement_getElem?]
  by_cases h : j = i
  · rw [if_pos h]; cases doc[j]? <;> simp [hf]
  · rw [if_neg h]

theorem getElem?_frame_congr {d1 d2 : Document}
    (hd : d1.map Element.frame = d2.map Element.frame) (p : Nat) :
    d1[p]?.map Element.frame = d2[p]?.map Element.frame := by
  rw [← List.getElem?_map, ← List.getElem?_map, hd]

theorem parentClasses_congr {d1 d2 : Document}
    (hd : d1.map Element.frame = d2.map Element.frame) (e : Element) :
    parentClasses d1 e = parentClasses d2 e := by
  unfold parentClasses
  cases hp : e.parentElement with
  | none => rfl
  | some p =>
    have h := getElem?_frame_congr hd p
    cases h1 : d1[p]? with
    | none =>
      cases h2 : d2[p]? with
      | none => simp only [h1, h2]
      | some b => rw [h1, h2] at h; cases h
    | some a =>
      cases h2 : d2[p]? with
      | none => rw [h1, h2] at h; cases h
      | some b =>
        rw [h1, h2] at h
        have hab : a.frame = b.frame := Option.some.inj h
        have h3 : ∀ x : Element, x.className = x.frame.className := fun _ => rfl
        simp only [h1, h2]
        rw [h3 a, hab, ← h3]

theorem isDropdownRelated_congr {d1 d2 : Document}
    (hd : d1.map Element.frame = d2.map Element.frame) (e : Element) :
    isDropdownRelated d1 e = isDropdownRelated d2 e := by
  unfold isDropdownRelated
  rw [parentClasses_congr hd]

/-- What the loop body does to the page, by the value of the condition. -/
theorem sweepElement_ok (css : Document → Nat → String) (page : Page) (i : Nat)
    (e : Element) (b : Bool) (hb : isDropdownRelated page.doc e = .ok b) :
    sweepElement css page i e =
      if (b && isWhite (css page.doc i)) = true then
        .normal ⟨updateElement page.doc i forceColors, page.corrected ++ [i]⟩
      else .normal page := by
  unfold sweepElement
  rw [hb]
  cases b <;> simp

theorem sweepElement_error (css : Document → Nat → String) (page : Page) (i : Nat)
    (e : Element) (err : String) (hb : isDropdownRelated page.doc e = .error err) :
    sweepElement css page i e = .throw page err := by
  unfold sweepElement
  rw [hb]

/-- A step of the sweep keeps what `R` relates: `R` holds between the page before and the
state after the body ran on `i`. -/
theorem sweepElement_rel (R : Page → Page → Prop) (css : Document → Nat → String)
    (page : Page) (i : Nat) (e : Element) (hrefl : R page page)
    (hfix : R page ⟨updateElement page.doc i forceColors, page.corrected ++ [i]⟩) :
    R page (sweepElement css page i e).state := by
  cases hb : isDropdownRelated page.doc e with
  | error err => rw [sweepElement_error css page i e err hb]; exact hrefl
  | ok b =>
    rw [sweepElement_ok css page i e b hb]
    by_cases h : (b && isWhite (css page.doc i)) = true
    · rw [if_pos h]; exact hfix
    · rw [if_neg h]; exact hrefl

theorem visitElement_rel (R : Page → Page → Prop) (css : Document → Nat → String)
    (page : Page) (i : Nat) (hrefl : R page page)
    (hfix : R page ⟨updateElement page.doc i forceColors, page.corrected ++ [i]⟩) :
    R page (visitElement css page i).state := by
  unfold visitElement
  cases page.doc[i]? with
  | none => exact hrefl
  | some e => exact sweepElement_rel R css page i e hrefl hfix

theorem state_bind {σ : Type} (c : Completion σ) (f : σ → Completion σ) :
    (c.bind f).state = c.state ∨ ∃ s, c = .normal s ∧ (c.bind f).state = (f s).state := by
  cases c with
  | normal s => exact Or.inr ⟨s, rfl, rfl⟩
  | throw s err => exact Or.inl rfl

theorem sweepElements_rel (R : Page → Page → Prop) (css : Document → Nat → String)
    (l : List Nat) (hrefl : ∀ p, R p p) (htrans : ∀ p q r, R p q → R q r → R p r)
    (hfix : ∀ p i, i ∈ l → R p ⟨updateElement p.doc i forceColors, p.corrected ++ [i]⟩)
    (page : Page) : R page (sweepElements css l page).state := by
  induction l generalizing page with
  | nil => exact hrefl page
  | cons i rest ih =>
    have h1 : R page (visitElement css page i).state :=
      visitElement_rel R css page i (hrefl page) (hfix page i (List.mem_cons_self _ _))
    have ih2 := ih (fun p j hj => hfix p j (List.mem_cons_of_mem _ hj))
    show R page ((visitElement css page i).bind (sweepElements css rest)).state
    rcases state_bind (visitElement css page i) (sweepElements css rest) with h | ⟨s, hs, h⟩
    · rw [h]; exact h1
    · rw [h]
      rw [hs] at h1
      exact htrans _ _ _ h1 (ih2 s)

theorem sweepElements_frame (css : Document → Nat → String) (l : List Nat) (page : Page) :
    (sweepElements css l page).state.doc.map Element.frame = page.doc.map Element.frame :=
  sweepElements_rel (fun p q => q.doc.map Element.frame = p.doc.map Element.frame) css l
    (fun _ => rfl) (fun _ _ _ h1 h2 => h2.trans h1)
    (fun p i _ => updateElement_frame p.doc i forceColors forceColors_frame) page

theorem sweepElements_other (css : Document → Nat → String) (l : List Nat) (page : Page)
    (j : Nat) (hj : j ∉ l) : (sweepElements css l page).state.doc[j]? = page.doc[j]? :=
  sweepElements_rel (fun p q => q.doc[j]? = p.doc[j]?) css l
    (fun _ => rfl) (fun _ _ _ h1 h2 => h2.trans h1)
    (fun p i hi => by
      show (updateElement p.doc i forceColors)[j]? = p.doc[j]?
      rw [updateElement_getElem?, if_neg (fun (h : j = i) => hj (h ▸ hi))]) page

theorem sweepElements_corrected (css : Document → Nat → String) (l : List Nat) (page : Page)
    (j : Nat) (hj : j ∈ page.corrected) : j ∈ (sweepElements css l page).state.corrected :=
  sweepElements_rel (fun p q => j ∈ p.corrected → j ∈ q.corrected) css l
    (fun _ h => h) (fun _ _ _ h1 h2 h => h2 (h1 h))
    (fun _ _ _ h => List.mem_append_left _ h) page hj

theorem bind_assoc {σ : Type} (c : Completion σ) (f g : σ → Completion σ) :
    (c.bind f).bind g = c.bind (fun s => (f s).bind g) := by
  cases c <;> rfl

theorem sweepElements_append (css : Document → Nat → String) (l1 l2 : List Nat)
    (page : Page) :
    sweepElements css (l1 ++ l2) page
      = (sweepElements css l1 page).bind (sweepElements css l2) := by
  induction l1 generalizing page with
  | nil => rfl
  | cons i rest ih =>
    show (visitElement css page i).bind (sweepElements css (rest ++ l2)) = _
    have : sweepElements css (rest ++ l2)
        = fun s => (sweepElements css rest s).bind (sweepElements css l2) := funext ih
    rw [this, ← bind_assoc]
    rfl
theorem bind_eq_normal {σ : Type} {c : Completion σ} {f : σ → Completion σ} {w : σ}
    (h : c.bind f = .normal w) : ∃ s, c = .normal s ∧ f s = .normal w := by
  cases c with
  | normal s => exact ⟨s, rfl, h⟩
  | throw s err => cases h

theorem range_split (n i : Nat) (hi : i < n) :
    ∃ rest, List.range n = List.range i ++ i :: rest ∧ i ∉ rest := by
  obtain ⟨k, rfl⟩ : ∃ k, n = i + (k + 1) := ⟨n - i - 1, by omega⟩
  refine ⟨(List.range k).map fun x => i + (x + 1), ?_, ?_⟩
  · rw [List.range_add, List.range_succ_eq_map]
    simp [List.map_map, Function.comp_def]
  · simp

theorem not_mem_range_self (i : Nat) : i ∉ List.range i := by simp

/-- A sweep that returns normally has visited every element: it reached the element `i` in
the state `sweepPrefix css doc i`, found the first conjunct of the condition to be some
`b` without a throw, and left the element forced or untouched accordingly. -/
theorem sweep_visit (css : Document → Nat → String) (doc : Document) (w : Page)
    (hw : window.fixDropdownColors css doc = .normal w) (i : Nat) (e : Element)
    (he : doc[i]? = some e) :
    ∃ b, isDropdownRelated doc e = .ok b ∧
      w.doc[i]? = some
        (if (b && isWhite (css (sweepPrefix css doc i).state.doc i)) = true then forceColors e
          else e) ∧
      ((b && isWhite (css (sweepPrefix css doc i).state.doc i)) = true → i ∈ w.corrected) := by
  have hi : i < doc.length := by
    obtain ⟨h, _⟩ := List.getElem?_eq_some.mp he
    exact h
  obtain ⟨rest, hsplit, hrest⟩ := range_split doc.length i hi
  unfold window.fixDropdownColors sweepPrefix at hw
  rw [hsplit, sweepElements_append] at hw
  obtain ⟨wi, hwi, hw2⟩ := bind_eq_normal hw
  have hpre : sweepPrefix css doc i = .normal wi := hwi
  have hwi_doc : wi.doc[i]? = some e := by
    have := sweepElements_other css (List.range i) ⟨doc, []⟩ i (not_mem_range_self i)
    rw [hwi] at this
    exact this.trans he
  have hwi_frame : wi.doc.map Element.frame = doc.map Element.frame := by
    have := sweepElements_frame css (List.range i) ⟨doc, []⟩
    rw [hwi] at this
    exact this
  have hw3 : (visitElement css wi i).bind (sweepElements css rest) = .normal w := hw2
  obtain ⟨wj, hwj, hw4⟩ := bind_eq_normal hw3
  have hvisit : visitElement css wi i = sweepElement css wi i e := by
    unfold visitElement; rw [hwi_doc]
  rw [hvisit] at hwj
  have hrel : isDropdownRelated wi.doc e = isDropdownRelated doc e :=
    isDropdownRelated_congr hwi_frame e
  have hw_doc : w.doc[i]? = wj.doc[i]? := by
    have := sweepElements_other css rest wj i hrest
    rw [hw4] at this
    exact this
  have hw_cor : i ∈ wj.corrected → i ∈ w.corrected := by
    intro h
    have := sweepElements_corrected css rest wj i h
    rw [hw4] at this
    exact this
  rw [hpre]
  show ∃ b, isDropdownRelated doc e = .ok b ∧
      w.doc[i]? = some (if (b && isWhite (css wi.doc i)) = true then forceColors e else e) ∧
      ((b && isWhite (css wi.doc i)) = true → i ∈ w.corrected)
  cases hb : isDropdownRelated doc e with
  | error err =>
    rw [← hrel] at hb
    rw [sweepElement_error css wi i e err hb] at hwj
    cases hwj
  | ok b =>
    refine ⟨b, rfl, ?_⟩
    rw [← hrel] at hb
    rw [sweepElement_ok css wi i e b hb] at hwj
    by_cases hc : (b && isWhite (css wi.doc i)) = true
    · rw [if_pos hc] at hwj
      cases hwj
      rw [if_pos hc, hw_doc]
      refine ⟨?_, fun _ => hw_cor (List.mem_append_right _ (List.mem_singleton.mpr rfl))⟩
      show (updateElement wi.doc i forceColors)[i]? = _
      rw [updateElement_getElem?, if_pos rfl, hwi_doc]
      rfl
    · rw [if_neg hc] at hwj
      cases hwj
      rw [if_neg hc, hw_doc]
      exact ⟨hwi_doc, fun h => absurd h hc⟩

theorem mem_splitOnWhitespace (l cur t : List Char) (h : t ∈ splitOnWhitespace l cur) :
    t <:+: cur.reverse ++ l := by
  induction l generalizing cur with
  | nil =>
    unfold splitOnWhitespace at h
    by_cases hc : cur.isEmpty = true
    · simp [hc] at h
    · simp only [hc, if_false, List.mem_singleton, Bool.false_eq_true] at h
      rw [h]
      simp
  | cons c cs ih =>
    unfold splitOnWhitespace at h
    have hsuf : ∀ u, u <:+: cs → u <:+: cur.reverse ++ c :: cs := fun u hu =>
      hu.trans ((List.suffix_append (cur.reverse ++ [c]) cs).isInfix.trans (by simp))
    by_cases hw : isAsciiWhitespace c = true
    · rw [if_pos hw] at h
      by_cases hc : cur.isEmpty = true
      · rw [if_pos hc] at h
        exact hsuf t (by simpa using ih [] h)
      · rw [if_neg hc] at h
        rcases List.mem_cons.mp h with h | h
        · rw [h]
          exact (List.prefix_append _ _).isInfix
        · exact hsuf t (by simpa using ih [] h)
    · rw [if_neg hw] at h
      have := ih (c :: cur) h
      simpa using this

theorem classListContains_substring {e : Element} {token : String}
    (h : e.classListContains token = true) : ContainsSubstring e.classAttr token := by
  unfold Element.classListContains at h
  rw [List.elem_eq_mem, decide_eq_true_eq] at h
  simpa using mem_splitOnWhitespace _ [] _ h

theorem option_in_select_option : ContainsSubstring "Select-option" "option" :=
  (includes_iff _ _).mp (by decide)

/-- An element with role `option`, or whose `class` contains `option`, passes the first
conjunct of the sweep's condition whenever evaluating it does not throw. -/
theorem isDropdownRelated_of_option {doc : Document} {e : Element} {b : Bool}
    (hb : isDropdownRelated doc e = .ok b)
    (h : e.role = some "option" ∨ includes e.classAttr "option" = true) : b = true := by
  unfold isDropdownRelated at hb
  cases hp : parentClasses doc e with
  | animated v => rw [hp] at hb; cases hb
  | string s =>
    rw [hp] at hb
    simp only [ClassName.includes] at hb
    cases h1 : DropdownFix.includes s "Select-menu" with
    | true => rw [h1] at hb; cases hb; rfl
    | false =>
      rw [h1] at hb
      cases h2 : DropdownFix.includes s "dropdown" with
      | true => rw [h2] at hb; cases hb; rfl
      | false =>
        rw [h2] at hb
        by_cases hr : e.role = some "option"
        · simp only [orElse, hr, decide_True] at hb
          cases hb; rfl
        · have hc : includes e.classAttr "option" = true := h.resolve_left hr
          simp only [orElse, hr, decide_False] at hb
          unfold Element.className at hb
          cases hs : e.svg with
          | true => rw [hs] at hb; cases hb
          | false =>
            rw [hs] at hb
            simp only [ClassName.includes, hc, Bool.false_eq_true, if_false] at hb
            cases hb; rfl

/-! ## Claims on the manual sweep -/

/-- C7, failing input: on `svgDocument` the sweep throws at the `svg` element, whose
`className` is no string, and ends there; the option after it, which meets the claimed
condition (its `class` contains `option`, its computed colour is white), keeps its inline
style. -/
theorem manual_sweep_throws_at_svg :
    window.fixDropdownColors whiteSheet svgDocument
      = .throw ⟨svgDocument, []⟩ "TypeError: includes is not a function" ∧
    svgDocument[2]? = some ⟨"div", false, some 0, "Select-option", none, [], []⟩ ∧
    includes "Select-option" "option" = true ∧
    isWhite (whiteSheet svgDocument 2) = true ∧
    styleOf (window.fixDropdownColors whiteSheet svgDocument).state.doc 2 = [] := by
  decide

/-- C8, as stated, fails: the `a.dropdown-item` of `itemDocument` is matched by the
automatic enforcement and has a white computed colour, and the manual sweep returns the
document unchanged. -/
theorem manual_sweep_misses_dropdown_item :
    itemDocument[1]? = some ⟨"a", false, some 0, "dropdown-item", none, [], []⟩ ∧
    (Selector.byClass "dropdown-item" ∈ selectors ∧
      (Selector.byClass "dropdown-item").matchesElement itemDocument
        ⟨"a", false, some 0, "dropdown-item", none, [], []⟩ = true) ∧
    whiteSheet itemDocument 1 = "rgb(255, 255, 255)" ∧
    window.fixDropdownColors whiteSheet itemDocument = .normal ⟨itemDocument, []⟩ ∧
    ¬ IsBlackOnWhite (styleOf (window.fixDropdownColors whiteSheet itemDocument).state.doc 1) := by
  decide

/-- C8, amended: when the manual sweep runs to its end, every element that the automatic
enforcement matches by `.Select-option`, `[role="option"]` or `[class*="option"]` and whose
computed colour is white when the sweep reads it is black-on-white afterwards; and in
`dropdownDocument` the sweep corrects an element with white computed colour that none of
the seven selectors matches. -/
theorem manual_sweep_covers_option_selectors :
    (∀ (css : Document → Nat → String) (doc : Document) (w : Page) (i : Nat) (e : Element),
      window.fixDropdownColors css doc = .normal w → doc[i]? = some e →
      ((Selector.byClass "Select-option").matchesElement doc e = true ∨
        (Selector.roleEquals "option").matchesElement doc e = true ∨
        (Selector.classSubstring "option").matchesElement doc e = true) →
      isWhite (css (sweepPrefix css doc i).state.doc i) = true →
      IsBlackOnWhite (styleOf w.doc i) ∧ i ∈ w.corrected) ∧
    (∃ (w : Page) (e : Element), dropdownDocument[2]? = some e ∧
      isWhite (whiteSheet dropdownDocument 2) = true ∧
      (∀ s ∈ selectors, s.matchesElement dropdownDocument e = false) ∧
      window.fixDropdownColors whiteSheet dropdownDocument = .normal w ∧
      IsBlackOnWhite (styleOf w.doc 2) ∧ 2 ∈ w.corrected) := by
  constructor
  · intro css doc w i e hw he hm hwhite
    obtain ⟨b, hb, hdoc, hcor⟩ := sweep_visit css doc w hw i e he
    have hopt : e.role = some "option" ∨ includes e.classAttr "option" = true := by
      rcases hm with h | h | h
      · exact Or.inr ((includes_iff _ _).mpr
          (option_in_select_option.trans (classListContains_substring h)))
      · exact Or.inl (by simpa [Selector.matchesElement] using h)
      · simp only [Selector.matchesElement, Bool.and_eq_true] at h
        exact Or.inr h.2
    have hbt : b = true := isDropdownRelated_of_option hb hopt
    have hc : (b && isWhite (css (sweepPrefix css doc i).state.doc i)) = true := by
      rw [hbt, hwhite]; rfl
    rw [if_pos hc] at hdoc
    rw [styleOf_eq hdoc]
    exact ⟨blackOnWhite_values e.style, hcor hc⟩
  · exact ⟨_, _, rfl, by decide, by decide, rfl, by decide, by decide⟩

/-- Witness of the amended C8: the option of `menuDocument` that is not selected. -/
theorem manual_sweep_covers_option_selectors_witness :
    IsBlackOnWhite (styleOf (window.fixDropdownColors whiteSheet menuDocument).state.doc 3) ∧
    3 ∈ (window.fixDropdownColors whiteSheet menuDocument).state.corrected :=
  manual_sweep_covers_option_selectors.1 whiteSheet menuDocument
    (window.fixDropdownColors whiteSheet menuDocument).state 3
    ⟨"div", false, some 1, "Select-option", none, [], []⟩ (by decide) rfl
    (Or.inl (by decide)) (by decide)

/-! ## The manual sweep on documents without SVG elements -/

theorem allHtml_congr {d1 d2 : Document}
    (hd : d1.map Element.frame = d2.map Element.frame) (h : AllHtml d1) : AllHtml d2 := by
  intro i e he
  have hf := getElem?_frame_congr hd i
  rw [he] at hf
  cases h1 : d1[i]? with
  | none => rw [h1] at hf; cases hf
  | some a =>
    rw [h1] at hf
    have hab : a.frame = e.frame := Option.some.inj hf
    have h3 : ∀ x : Element, x.svg = x.frame.svg := fun _ => rfl
    rw [h3 e, ← hab, ← h3]
    exact h i a h1

theorem isDropdownRelated_html {doc : Document} (hd : AllHtml doc) {e : Element}
    (he : e.svg = false) : isDropdownRelated doc e = .ok (relatedToDropdown doc e) := by
  have hpc : parentClasses doc e = .string
      (match e.parentElement with
        | some p =>
          match doc[p]? with
          | some parent => parent.classAttr
          | none => ""
        | none => "") := by
    unfold parentClasses
    cases e.parentElement with
    | none => rfl
    | some p =>
      cases hp : doc[p]? with
      | none => simp only [hp]
      | some a => simp [hp, Element.className, hd p a hp]
  have hcn : e.className = .string e.classAttr := by simp [Element.className, he]
  unfold isDropdownRelated relatedToDropdown
  rw [hpc, hcn]
  simp only [ClassName.includes]
  generalize (match e.parentElement with
        | some p =>
          match doc[p]? with
          | some parent => parent.classAttr
          | none => ""
        | none => "") = pc
  cases DropdownFix.includes pc "Select-menu" <;> cases DropdownFix.includes pc "dropdown" <;>
    cases decide (e.role = some "option") <;> rfl

theorem sweepElements_html (css : Document → Nat → String) (l : List Nat) (page : Page)
    (h : AllHtml page.doc) : ∃ w, sweepElements css l page = .normal w := by
  induction l generalizing page with
  | nil => exact ⟨page, rfl⟩
  | cons i rest ih =>
    show ∃ w, (visitElement css page i).bind (sweepElements css rest) = .normal w
    have hv : ∃ p2, visitElement css page i = .normal p2 ∧ AllHtml p2.doc := by
      unfold visitElement
      cases he : page.doc[i]? with
      | none => exact ⟨page, rfl, h⟩
      | some e =>
        have hs := sweepElement_ok css page i e _ (isDropdownRelated_html h (h i e he))
        have hf := sweepElement_rel
          (fun p q => q.doc.map Element.frame = p.doc.map Element.frame) css page i e rfl
          (updateElement_frame page.doc i forceColors forceColors_frame)
        simp only
        by_cases hc : (relatedToDropdown page.doc e && isWhite (css page.doc i)) = true
        · rw [if_pos hc] at hs
          rw [hs] at hf ⊢
          exact ⟨_, rfl, allHtml_congr hf.symm h⟩
        · rw [if_neg hc] at hs
          rw [hs]
          exact ⟨_, rfl, h⟩
    obtain ⟨p2, hp2, hh⟩ := hv
    rw [hp2]
    exact ih p2 hh

/-- On a document without SVG elements the manual sweep returns normally, and it forces
black-on-white exactly on the elements that meet its condition when it reads them: parent
`className` containing `Select-menu` or `dropdown`, or role `option`, or own `className`
containing `option`, and a computed colour that is one of the three white strings.  Every
other element keeps its inline style, and listeners are untouched. -/
theorem manual_sweep_on_html (css : Document → Nat → String) (doc : Document)
    (h : AllHtml doc) :
    ∃ w, window.fixDropdownColors css doc = .normal w ∧
      ∀ (i : Nat) (e : Element), doc[i]? = some e →
        w.doc[i]? = some
          (if (relatedToDropdown doc e &&
              isWhite (css (sweepPrefix css doc i).state.doc i)) = true
            then forceColors e else e) ∧
        listenersOf w.doc i = e.listeners := by
  obtain ⟨w, hw⟩ := sweepElements_html css (List.range doc.length) ⟨doc, []⟩ h
  refine ⟨w, hw, ?_⟩
  intro i e he
  obtain ⟨b, hb, hdoc, _⟩ := sweep_visit css doc w hw i e he
  rw [isDropdownRelated_html h (h i e he)] at hb
  cases hb
  refine ⟨hdoc, ?_⟩
  rw [listenersOf_eq hdoc]
  by_cases hc : (relatedToDropdown doc e &&
      isWhite (css (sweepPrefix css doc i).state.doc i)) = true
  · rw [if_pos hc]; rfl
  · rw [if_neg hc]

/-! ## Ancestor chains: the fuel is enough -/

theorem ancestors_fuel (doc : Document) (hwf : WellFormed doc) (i : Nat) :
    ∀ (e : Element), doc[i]? = some e → ∀ fuel, i ≤ fuel →
      ancestors doc fuel e.parentElement = ancestors doc i e.parentElement := by
  induction i using Nat.strong_induction_on with
  | _ i ih =>
    intro e he fuel hfuel
    cases hp : e.parentElement with
    | none => cases fuel <;> cases i <;> rfl
    | some p =>
      have hpi : p < i := hwf i e he p hp
      have hil : i < doc.length := by
        obtain ⟨h, _⟩ := List.getElem?_eq_some.mp he
        exact h
      obtain ⟨a, ha⟩ : ∃ a, doc[p]? = some a :=
        ⟨doc[p], List.getElem?_eq_getElem (by omega)⟩
      obtain ⟨f, rfl⟩ : ∃ f, fuel = f + 1 := ⟨fuel - 1, by omega⟩
      obtain ⟨k, rfl⟩ : ∃ k, i = k + 1 := ⟨i - 1, by omega⟩
      simp only [ancestors, ha]
      rw [ih p hpi a ha f (by omega), ih p hpi a ha k (by omega)]

/-- In a well-formed document the chain of ancestors of an element is complete with the
fuel `ancestorsOf` gives it: more fuel finds no further ancestor. -/
theorem ancestorsOf_complete (doc : Document) (hwf : WellFormed doc) (i : Nat) (e : Element)
    (he : doc[i]? = some e) (fuel : Nat) (hfuel : doc.length ≤ fuel) :
    ancestors doc fuel e.parentElement = ancestorsOf doc e := by
  have hil : i < doc.length := by
    obtain ⟨h, _⟩ := List.getElem?_eq_some.mp he
    exact h
  unfold ancestorsOf
  rw [ancestors_fuel doc hwf i e he fuel (by omega),
    ancestors_fuel doc hwf i e he doc.length (by omega)]

end DropdownFix
